import Mathlib

/-!
Verification of the FAT volume engine of `zos_rs` (src/src/fat/{mod,header,dirent,fatmanager}.rs)
against its natural-language specification.

Shallow embedding conventions:
* Machine integers (`u32`, `u8`) are modelled as `Nat` with explicit `% 2^32` wherever the Rust
  code relies on wrap-around (release-mode wrapping arithmetic); values that are bytes carry
  `< 256` hypotheses where a theorem needs them.
* Byte strings (`&[u8]`, `String` contents) are `List Nat`.  Rust `String` names are modelled by
  their UTF-8 byte lists; the `str::from_utf8` validity check of `Entry::from_bytes` is modelled
  as transparent (it is the identity on the byte content whenever it succeeds, and every name the
  engine itself stores comes from a valid Rust string).
* Fallible code returns `Option`/`Except`.  Loops that the Rust code drives by following FAT
  chains (which can diverge on corrupted, cyclic tables) take an explicit `gas` parameter;
  `none` means the gas ran out, i.e. the Rust loop has not yet terminated within that many
  iterations.  A result independent of all sufficiently large `gas` is a termination statement.
* The backing file is modelled at two granularities, matching how the code itself is layered:
  -- `Disk` (`Nat → Nat`, byte-addressed) for `format`/`write_header`, which address raw bytes;
  -- `VolState` for the data operations, holding the FAT cell array (`fat : Nat → Nat`) and the
     per-cluster payload bytes (`data : Nat → List Nat`).  This separation is valid on the
     geometries the data-operation claims quantify over (the FAT region and the data region do
     not alias there); `read_cluster` zero-pads to 4096 bytes exactly like the Rust code reads
     into a zero-initialised buffer.
* `FATManager` is the transient per-operation cache of FAT edits.  The Rust cache is keyed by
  128-entry FAT sector; because sectors are loaded from the (unchanged) disk on first touch and
  flushed whole, writing back an untouched cell of a touched sector stores its original value.
  The cell-granular association list used here therefore yields the same final FAT contents.
-/

namespace ZosFs


/-- `0xFFFFFFFF`, the `FAT_READ_DONE` / END-OF-CHAIN sentinel (`mark_read_done`). -/
def ENDV : Nat := 4294967295

/-- `0xFFFFFFFE`, the `FAT_BAD_CLUSTER` sentinel (`mark_bad_cluster`). -/
def BADV : Nat := 4294967294

/-- `2^32`, the modulus of Rust `u32` arithmetic. -/
def U32 : Nat := 4294967296

/-- The engine error kinds (`FATError` in src/src/fat/mod.rs). -/
inductive FATError where
  | FilenameTooLong
  | FileNotFound
  | CannotRead
  | CannotWrite
  | NotEnoughSpace
  | FileExists
  | DirNotEmpty
deriving DecidableEq

/-- Little-endian encoding of a `u32` value as four bytes (`u32::to_le_bytes`). -/
def le4 (n : Nat) : List Nat :=
  [n % 256, n / 256 % 256, n / 65536 % 256, n / 16777216 % 256]

/-- Little-endian decoding of four bytes at offset `off` (`u32::from_le_bytes` on
`bytes[off..off+4]`); out-of-range positions read as 0. -/
def readLE32 (bs : List Nat) (off : Nat) : Nat :=
  bs.getD off 0 + 256 * bs.getD (off + 1) 0 + 65536 * bs.getD (off + 2) 0 +
    16777216 * bs.getD (off + 3) 0

/-! ## Directory entries (src/src/fat/dirent.rs) -/

/-- `Flags::Occupied`. -/
def OCCUPIED : Nat := 1

/-- `Flags::Directory`. -/
def DIRECTORY : Nat := 2

/-- `Flags::System`. -/
def SYSTEM : Nat := 4

/-- A directory entry (`dirent::Entry`); the name is its UTF-8 byte list. -/
structure Entry where
  name : List Nat
  size : Nat
  cluster : Nat
  flags : Nat
deriving DecidableEq

/-- `Entry::new`: fails when the name exceeds 12 bytes. -/
def Entry.new? (name : List Nat) (size cluster flags : Nat) : Option Entry :=
  if 12 < name.length then none else some ⟨name, size, cluster, flags⟩

/-- `Entry::from_bytes`: the name is bytes 0..12 with every NUL byte removed
(the Rust code filters `**c != 0` over the whole field, not only the tail),
then the three little-endian `u32` fields.  `None` when fewer than 24 bytes
are available (the last `get` range is `20..24`). -/
def Entry.fromBytes? (bs : List Nat) : Option Entry :=
  if 24 ≤ bs.length then
    some ⟨(bs.take 12).filter (fun b => b ≠ 0), readLE32 bs 12, readLE32 bs 16, readLE32 bs 20⟩
  else none

/-- `Entry::as_bytes`: a 32-byte record, name NUL-padded to 12 bytes, then the
three fields little-endian, then 8 reserved zero bytes.  (As in the Rust code,
this is only meaningful for names of at most 12 bytes.) -/
def Entry.asBytes (e : Entry) : List Nat :=
  e.name ++ List.replicate (12 - e.name.length) 0 ++
    le4 e.size ++ le4 e.cluster ++ le4 e.flags ++ List.replicate 8 0

/-- `Entry::set_flags`. -/
def Entry.setFlags (e : Entry) (f : Nat) : Entry := { e with flags := f }

/-! ## Header (src/src/fat/header.rs) -/

inductive HeaderError where
  | BadCapacity
  | BadChecksum
  | BadBytes
  | CannotFormat
deriving DecidableEq

/-- The 20-byte volume header. -/
structure Header where
  bytes_per_sector : Nat
  sectors_per_cluster : Nat
  sector_count : Nat
  fat_count : Nat
  checksum : Nat
deriving DecidableEq

/-- `Header::capacity_to_sector_count`: note the Rust code first casts the
`usize` capacity to `u32` (hence the `% 2^32`) and then divides by 512. -/
def capacity_to_sector_count (capacity : Nat) : Nat := capacity % U32 / 512

/-- `Header::update_checksum`: `u32::MAX - (bps + spc + sc + fc) + 1` in
wrapping `u32` arithmetic. -/
def Header.updateChecksum (h : Header) : Header :=
  { h with
    checksum :=
      ((U32 - 1) -
          (h.bytes_per_sector + h.sectors_per_cluster + h.sector_count + h.fat_count) % U32 +
        1) % U32 }

/-- `Header::new` (the capacity argument is already in bytes, as produced by
`Unit::to_bytes`). -/
def Header.new? (capacity : Nat) : Except HeaderError Header :=
  if capacity % 512 ≠ 0 then .error .BadCapacity
  else .ok (Header.updateChecksum ⟨512, 8, capacity_to_sector_count capacity, 2, 0⟩)

/-- `Header::check_checksum`: the wrapping `u32` sum of all five fields must be 0. -/
def Header.checkChecksum (h : Header) : Except HeaderError Unit :=
  if (h.checksum + h.bytes_per_sector + h.sectors_per_cluster + h.sector_count + h.fat_count) %
        U32 = 0 then
    .ok ()
  else .error .BadChecksum

/-- `Header::from_raw_bytes`: exactly 20 bytes, five little-endian `u32`
fields, then the checksum test. -/
def Header.fromRawBytes (bs : List Nat) : Except HeaderError Header :=
  if bs.length ≠ 20 then .error .BadBytes
  else
    let h : Header := ⟨readLE32 bs 0, readLE32 bs 4, readLE32 bs 8, readLE32 bs 12, readLE32 bs 16⟩
    match h.checkChecksum with
    | .ok _ => .ok h
    | .error e => .error e

/-! ## Volume geometry (src/src/fat/mod.rs, lines 154-172) -/

/-- The cluster count `sector_count / sectors_per_cluster` used throughout `mod.rs`. -/
def Header.clusterCount (h : Header) : Nat := h.sector_count / h.sectors_per_cluster

/-- `FAT::first_data_sector`:
`1 + fat_count * (sector_count / sectors_per_cluster) / (bytes_per_sector / 4)` —
all divisions are integer (flooring) divisions, and the multiplication binds first. -/
def first_data_sector (h : Header) : Nat :=
  1 + h.fat_count * (h.sector_count / h.sectors_per_cluster) / (h.bytes_per_sector / 4)

/-- `FAT::cluster_to_sector` (`cluster ≥ 1` in every engine use; the Nat
subtraction matches the Rust `u32` subtraction on that range). -/
def cluster_to_sector (h : Header) (cluster : Nat) : Nat :=
  first_data_sector h + (cluster - 1) * h.sectors_per_cluster

/-- `FAT::sector_to_byte`. -/
def sector_to_byte (h : Header) (sector : Nat) : Nat := sector * h.bytes_per_sector

/-! ## Byte-level disk model for `format` / `write_header` -/

/-- The backing file as a byte-addressed map. -/
def Disk : Type := Nat → Nat

/-- A positioned write of a byte string (one `seek` + `write` sequence). -/
def writeBytes (d : Disk) (off : Nat) (bs : List Nat) : Disk :=
  fun i => if off ≤ i ∧ i < off + bs.length then bs.getD (i - off) 0 else d i

/-- The zeroing pass of `write_header`: `sector_count − 1` zero sectors are
written starting at byte `bytes_per_sector`, i.e. bytes `[lo, hi)` become 0. -/
def zeroBytes (d : Disk) (lo hi : Nat) : Disk :=
  fun i => if lo ≤ i ∧ i < hi then 0 else d i

/-- A positioned read of `len` bytes. -/
def readBytes (d : Disk) (off len : Nat) : List Nat :=
  (List.range len).map (fun i => d (off + i))

/-- Read a little-endian `u32` directly from the disk. -/
def readLE32d (d : Disk) (off : Nat) : Nat :=
  d off + 256 * d (off + 1) + 65536 * d (off + 2) + 16777216 * d (off + 3)

/-- Split a byte string into 32-byte records; the first argument is structural
fuel (always at least the record count when called with the string's length). -/
def chunksN : Nat → List Nat → List (List Nat)
  | 0, _ => []
  | k + 1, bs => if bs = [] then [] else bs.take 32 :: chunksN k (bs.drop 32)

/-- Split a byte string into 32-byte records: the `(0..4096).step_by(32)` loop
runs exactly 128 times over the 4096-byte cluster. -/
def chunks32 (bs : List Nat) : List (List Nat) := chunksN 128 bs

/-- `read_cluster_entries`: decode each 32-byte record (the Rust code unwraps;
on a 4096-byte cluster every record decodes). -/
def decodeEntries (bs : List Nat) : List Entry :=
  (chunks32 bs).map (fun b => (Entry.fromBytes? b).getD ⟨[], 0, 0, 0⟩)

/-- `write_cluster_entries`: concatenate the 32-byte encodings. -/
def encodeEntries (es : List Entry) : List Nat :=
  (es.map Entry.asBytes).flatten

/-- The `.` entry of a directory cluster (`Entry::new(".", 0, c, 7)`). -/
def dotEntry (c : Nat) : Entry := ⟨[46], 0, c, OCCUPIED + DIRECTORY + SYSTEM⟩

/-- The `..` entry of a directory cluster. -/
def dotdotEntry (c : Nat) : Entry := ⟨[46, 46], 0, c, OCCUPIED + DIRECTORY + SYSTEM⟩

/-- The per-FAT sector count used by `write_header`:
`1 + 4 * cluster_count / bytes_per_sector` (flooring division). -/
def fat_sectors (h : Header) : Nat :=
  1 + 4 * (h.sector_count / h.sectors_per_cluster) / h.bytes_per_sector

/-- `FAT::write_header`: header bytes at 0, zero sectors `1 .. sector_count − 1`,
seed BAD/END at the start of sector 1 (FAT #1) and at the start of sector
`1 + fat_sectors` (intended FAT #2 mirror), then initialise the root directory
cluster (cluster 1) with `.` and `..`.  The final `flush` is a no-op here. -/
def write_header (h : Header) (d : Disk) : Disk :=
  let d1 := writeBytes d 0 (le4 h.bytes_per_sector ++ le4 h.sectors_per_cluster ++
    le4 h.sector_count ++ le4 h.fat_count ++ le4 h.checksum)
  let d2 := zeroBytes d1 h.bytes_per_sector (h.sector_count * h.bytes_per_sector)
  let d3 := writeBytes d2 h.bytes_per_sector (le4 BADV ++ le4 ENDV)
  let d4 := writeBytes d3 ((1 + fat_sectors h) * h.bytes_per_sector) (le4 BADV ++ le4 ENDV)
  let rootOff := sector_to_byte h (cluster_to_sector h 1)
  let entries := decodeEntries (readBytes d4 rootOff 4096)
  let entries2 := (entries.set 0 (dotEntry 1)).set 1 (dotdotEntry 1)
  writeBytes d4 rootOff (encodeEntries entries2)

/-- `FAT::format` (in this model writes cannot fail, so `CannotFormat` does not arise). -/
def format (cap : Nat) (d : Disk) : Except HeaderError (Header × Disk) :=
  match Header.new? cap with
  | .error e => .error e
  | .ok h => .ok (h, write_header h d)

/-- An all-zero backing file. -/
def zeroDisk : Disk := fun _ => 0

/-! ## Volume state and the FAT cache -/

/-- The volume state seen by the data operations: the FAT cell array and the
per-cluster payload bytes (canonical geometry: 4096-byte clusters, 128 FAT cells
per sector; `clusterCount = sector_count / sectors_per_cluster`).  On the
geometries the data-operation claims quantify over, the FAT region and the data
region of the backing file do not alias, so they are modelled as separate maps. -/
structure VolState where
  clusterCount : Nat
  fat : Nat → Nat
  data : Nat → List Nat

/-- `read_cluster`: the Rust code reads into a zero-initialised 4096-byte buffer,
so short stored payloads read back zero-extended. -/
def readCluster (s : VolState) (c : Nat) : List Nat :=
  (s.data c).take 4096 ++ List.replicate (4096 - (s.data c).length) 0

/-- `write_cluster`. -/
def writeCluster (s : VolState) (c : Nat) (bs : List Nat) : VolState :=
  { s with data := fun x => if x = c then bs else s.data x }

/-- `next_cluster c`: reads the FAT sector `1 + c / 128` and returns its cell
`c % 128` — i.e. exactly FAT cell `c`. -/
def next_cluster (s : VolState) (c : Nat) : Nat := s.fat c

/-- `read_cluster_entries`: the 128 decoded 32-byte records of a cluster. -/
def entriesOf (s : VolState) (c : Nat) : List Entry := decodeEntries (readCluster s c)

/-- `write_cluster_entries`. -/
def writeEntries (s : VolState) (c : Nat) (es : List Entry) : VolState :=
  writeCluster s c (encodeEntries es)

/-- `FATManager`, at cell granularity (newest binding first).  The Rust cache is
keyed by whole 128-cell FAT sectors, loaded from the unchanged disk on first touch
(guarded by `contains_cluster`) and flushed whole; untouched cells of a touched
sector are therefore written back with their original values, so the cell-granular
view commits to exactly the same final FAT. -/
def Mgr : Type := List (Nat × Nat)

/-- `FATManager::get_cluster_value`, falling back to the on-disk FAT for cells
whose sector has not been modified (loading a sector into the cache copies the
disk values, so an untouched cached cell reads the same either way). -/
def mgrGet (fat : Nat → Nat) (m : Mgr) (c : Nat) : Nat :=
  match m.lookup c with
  | some v => v
  | none => fat c

/-- `FATManager::set_cluster_value`. -/
def mgrSet (m : Mgr) (c v : Nat) : Mgr := (c, v) :: m

/-- `FATManager::flush` followed by the `write_fat` loop: overlay every cached
cell over the on-disk FAT (the flush order is immaterial — distinct sectors). -/
def mgrCommit (fat : Nat → Nat) (m : Mgr) : Nat → Nat :=
  fun c => mgrGet fat m c

/-! ## The allocator (`FAT::allocate_clusters`) -/

/-- One pass of the `allocate_clusters` scan loop.  Arguments mirror the Rust
locals: the cache `m`, `begin_cluster` `b`, `prev_cluster` `p` (0 is the
sentinel for both), the scan position `cur` and the remaining `count` (a `u32`,
decremented with wrap-around).  On a free cell the Rust code updates `begin`,
then either records `prev` (first find) or writes the link `prev → cur` and
decrements `count`, then tests `count == 1`; the two sides of the
`prev_cluster == 0` branch are transcribed as the two inner arms here.
`gas` is `cluster_count − cur`: the Rust loop increments `cur` once per pass and
fails when it reaches `cluster_count` (for `cluster_count = 0` the Rust scan
would grind through the whole `u32` range reading garbage before failing; this
model fails immediately, and no claim quantifies over that degenerate geometry). -/
def allocLoop (fat : Nat → Nat) (cc : Nat) :
    Nat → Mgr → Nat → Nat → Nat → Nat → Except FATError (Nat × (Nat → Nat))
  | 0, _, _, _, _, _ => .error .NotEnoughSpace
  | gas + 1, m, b, p, cur, count =>
    if mgrGet fat m cur = 0 then
      if p = 0 then
        if count = 1 then
          .ok (if b = 0 then cur else b, mgrCommit fat (mgrSet m cur ENDV))
        else if cur + 1 = cc then .error .NotEnoughSpace
        else allocLoop fat cc gas m (if b = 0 then cur else b) cur (cur + 1) count
      else
        if (count + (U32 - 1)) % U32 = 1 then
          .ok (if b = 0 then cur else b, mgrCommit fat (mgrSet (mgrSet m p cur) cur ENDV))
        else if cur + 1 = cc then .error .NotEnoughSpace
        else allocLoop fat cc gas (mgrSet m p cur) (if b = 0 then cur else b) cur (cur + 1)
          ((count + (U32 - 1)) % U32)
    else if cur + 1 = cc then .error .NotEnoughSpace
    else allocLoop fat cc gas m b p (cur + 1) count

/-- `FAT::allocate_clusters`.  On success the returned map is the flushed FAT;
on failure the transient cache is discarded, so the on-disk FAT is untouched
(the error constructor carries no state). -/
def allocate_clusters (s : VolState) (count : Nat) : Except FATError (Nat × (Nat → Nat)) :=
  allocLoop s.fat s.clusterCount s.clusterCount [] 0 0 0 count

/-- The free FAT cells among clusters `0 .. k` (scan order). -/
def freesBelow (fat : Nat → Nat) (k : Nat) : List Nat :=
  (List.range k).filter (fun c => fat c == 0)

/-- The last element of a list, or `d` when empty (specification helper). -/
def lastD : List Nat → Nat → Nat
  | [], d => d
  | [a], _ => a
  | _ :: b :: rest, d => lastD (b :: rest) d

/-- The pending links held in the cache mid-scan: each collected free cluster
except the last points at its successor; everything else reads through. -/
def linkFun (fat : Nat → Nat) : List Nat → Nat → Nat
  | [], x => fat x
  | [_], x => fat x
  | a :: b :: rest, x => if x = a then b else linkFun fat (b :: rest) x

/-- The FAT after committing a freshly allocated chain `cs`: consecutive links,
END-OF-CHAIN at the last element, everything else unchanged. -/
def chainFat (fat : Nat → Nat) : List Nat → Nat → Nat
  | [], x => fat x
  | [a], x => if x = a then ENDV else fat x
  | a :: b :: rest, x => if x = a then b else chainFat fat (b :: rest) x

/-- A well-formed FAT chain: `Chain fat c l` states that the walk from `c`
follows `l` and the last cell holds END-OF-CHAIN. -/
inductive Chain (fat : Nat → Nat) : Nat → List Nat → Prop
  | single (c : Nat) : fat c = ENDV → Chain fat c [c]
  | cons (c : Nat) (cs : List Nat) : Chain fat (fat c) cs → fat c ≠ ENDV → Chain fat c (c :: cs)

/-- A partial chain walk: `Walk fat c l d` — following the FAT from `c` through
the cells `l` (none terminal) reaches `d`. -/
inductive Walk (fat : Nat → Nat) : Nat → List Nat → Nat → Prop
  | refl (c : Nat) : Walk fat c [] c
  | step (c : Nat) (l : List Nat) (d : Nat) : c ≠ ENDV → fat c ≠ BADV →
      Walk fat (fat c) l d → Walk fat c (c :: l) d

/-- A chain walk that runs into a BAD cell: the cells visited before the abort. -/
inductive BadWalk (fat : Nat → Nat) : Nat → List Nat → Prop
  | hit (c : Nat) : c ≠ ENDV → fat c = BADV → BadWalk fat c [c]
  | step (c : Nat) (ws : List Nat) : c ≠ ENDV → fat c ≠ BADV → BadWalk fat (fat c) ws →
      BadWalk fat c (c :: ws)

/-! ## Path resolution (`FAT::find_file`) -/

/-- `filter_mkdir` (also `filter_ls`): OCCUPIED and DIRECTORY. -/
def filter_mkdir (e : Entry) : Bool := e.flags &&& (OCCUPIED ||| DIRECTORY) == OCCUPIED ||| DIRECTORY

/-- `filter_find`: any OCCUPIED entry. -/
def filter_find (e : Entry) : Bool := e.flags &&& OCCUPIED == OCCUPIED

/-- `filter_find_file`: OCCUPIED and not DIRECTORY. -/
def filter_find_file (e : Entry) : Bool := e.flags &&& (OCCUPIED ||| DIRECTORY) == OCCUPIED

/-- `FAT::split_path` at component granularity: a path is the list of its
`split('/')` components; `rsplit_once('/')` keeps everything before the last
separator as the directory (whose own `split('/')` is `dropLast`) and the rest
as the filename, or `(".", path)` when there is no separator. -/
def splitComps (comps : List (List Nat)) : List (List Nat) × List Nat :=
  match comps with
  | [] => ([[46]], [])
  | [x] => ([[46]], x)
  | _ => (comps.dropLast, comps.getLastD [])

/-- One directory-chain scan of `find_file` for the component `item`: the inner
`loop`.  Scanning a cluster takes the first entry whose name matches and which
either passes `filter` (when `item` is the last component) or has
OCCUPIED|DIRECTORY flags (intermediate component — the walker then descends to
its cluster, `Sum.inr`); otherwise the walk follows the FAT, failing with
`FileNotFound` at END-OF-CHAIN and `CannotRead` at BAD.  The second component
of the result is the list of directory clusters read — a ghost trace carried
for the theorems; the computation itself is exactly the Rust loop. -/
def ffChainT (s : VolState) (item : List Nat) (last : Bool) (filter : Entry → Bool)
    (cluster : Nat) : Nat → Option (Except FATError (Entry ⊕ Nat) × List Nat)
  | 0 => none
  | gas + 1 =>
    match (entriesOf s cluster).find? (fun e =>
        e.name == item && (if last then filter e else e.flags &&& 3 == 3)) with
    | some e =>
      if last then some (.ok (Sum.inl e), [cluster])
      else some (.ok (Sum.inr e.cluster), [cluster])
    | none =>
      if next_cluster s cluster = ENDV then some (.error .FileNotFound, [cluster])
      else if next_cluster s cluster = BADV then some (.error .CannotRead, [cluster])
      else
        match ffChainT s item last filter (next_cluster s cluster) gas with
        | none => none
        | some (r, t) => some (r, cluster :: t)

/-- `FAT::find_file` over the component list, instrumented with the trace of
directory clusters read.  The outer `while let` walks the components; each
component longer than 12 bytes fails with `FilenameTooLong` before its scan;
an empty component list falls through to the final `FileNotFound` (unreachable
from `split`, which never yields an empty list).  The `Sum.inl` arm with a
non-empty remainder cannot arise (the scan only returns `inl` on the last
component) and is mapped to the final entry for totality. -/
def findFileT (s : VolState) (filter : Entry → Bool) :
    List (List Nat) → Nat → Nat → Option (Except FATError Entry × List Nat)
  | [], _, _ => some (.error .FileNotFound, [])
  | item :: rest, cluster, gas =>
    if 12 < item.length then some (.error .FilenameTooLong, [])
    else
      match ffChainT s item rest.isEmpty filter cluster gas with
      | none => none
      | some (.error e, t) => some (.error e, t)
      | some (.ok (Sum.inl e), t) => some (.ok e, t)
      | some (.ok (Sum.inr c), t) =>
        match findFileT s filter rest c gas with
        | none => none
        | some (r, t2) => some (r, t ++ t2)

/-- `FAT::find_file`: resolution starts at cluster 1 (the root); the ghost
trace is dropped.  `gas` bounds each chain-following loop; `none` means some
loop has not terminated within `gas` iterations. -/
def find_file (s : VolState) (comps : List (List Nat)) (filter : Entry → Bool) (gas : Nat) :
    Option (Except FATError Entry) :=
  (findFileT s filter comps 1 gas).map Prod.fst

/-! ## Removal (`FAT::dealloc_clusters`, `is_empty`, `remove`) -/

/-- The `dealloc_clusters` walk: mark each visited cell 0 in the cache;
`next_cluster` always reads the on-disk FAT (never the cache); abort — inner
`none`, cache dropped — when the next cell is BAD.  Outer `none`: out of gas
(the Rust loop runs forever on a BAD-free cycle). -/
def deallocLoop (s : VolState) : Nat → Mgr → Nat → Option (Option Mgr)
  | 0, _, _ => none
  | gas + 1, m, cluster =>
    if cluster = ENDV then some (some m)
    else if next_cluster s cluster = BADV then some none
    else deallocLoop s gas (mgrSet m cluster 0) (next_cluster s cluster)

/-- `FAT::dealloc_clusters`: flush the zeroed cells on success; on BAD the Rust
function returns `None` without flushing, leaving the on-disk FAT untouched. -/
def dealloc_clusters (s : VolState) (cluster : Nat) (gas : Nat) : Option VolState :=
  match deallocLoop s gas [] cluster with
  | none => none
  | some none => some s
  | some (some m) => some { s with fat := mgrCommit s.fat m }

/-- `FAT::is_empty`: scan the directory chain for any OCCUPIED entry other than
`.` and `..`. -/
def isEmptyLoop (s : VolState) : Nat → Nat → Option (Except FATError Bool)
  | 0, _ => none
  | gas + 1, cluster =>
    if cluster = ENDV then some (.ok true)
    else if (entriesOf s cluster).any (fun e =>
        e.name != [46] && e.name != [46, 46] && e.flags &&& 1 == 1) then
      some (.ok false)
    else if next_cluster s cluster = BADV then some (.error .CannotRead)
    else isEmptyLoop s gas (next_cluster s cluster)

/-- Replace the first entry satisfying `p` by `f` of it: the Rust loops iterate
the 128-entry array with `iter_mut` and mutate the first match in place. -/
def updFirst (p : Entry → Bool) (f : Entry → Entry) : List Entry → List Entry
  | [] => []
  | e :: rest => if p e then f e :: rest else e :: updFirst p f rest

/-- The scan loop of `FAT::remove`: find the entry whose name matches `fn` and
whose flags **exactly equal** `flags`; for directory removals run the
`is_empty` check first (its error propagates, `Ok(false)` yields
`DirNotEmpty`); then zero the entry's flags in the in-memory array, deallocate
its chain (the `Option` result is ignored by the Rust code beyond its state
effect), and write the array back. -/
def removeScan (s : VolState) (fn : List Nat) (flags : Nat) :
    Nat → Nat → Option (Except FATError VolState)
  | 0, _ => none
  | gas + 1, cluster =>
    if cluster = ENDV then some (.error .FileNotFound)
    else
      match (entriesOf s cluster).find? (fun e => e.name == fn && e.flags == flags) with
      | some e =>
        if flags &&& DIRECTORY == DIRECTORY then
          match isEmptyLoop s gas e.cluster with
          | none => none
          | some (.error er) => some (.error er)
          | some (.ok false) => some (.error .DirNotEmpty)
          | some (.ok true) =>
            match dealloc_clusters s e.cluster gas with
            | none => none
            | some s2 => some (.ok (writeEntries s2 cluster
                (updFirst (fun x => x.name == fn && x.flags == flags)
                  (fun x => Entry.setFlags x 0) (entriesOf s cluster))))
        else
          match dealloc_clusters s e.cluster gas with
          | none => none
          | some s2 => some (.ok (writeEntries s2 cluster
              (updFirst (fun x => x.name == fn && x.flags == flags)
                (fun x => Entry.setFlags x 0) (entriesOf s cluster))))
      | none =>
        if next_cluster s cluster = BADV then some (.error .CannotRead)
        else removeScan s fn flags gas (next_cluster s cluster)

/-- `FAT::remove`. -/
def remove (s : VolState) (comps : List (List Nat)) (flags : Nat) (gas : Nat) :
    Option (Except FATError VolState) :=
  match findFileT s filter_mkdir (splitComps comps).1 1 gas with
  | none => none
  | some (.error e, _) => some (.error e)
  | some (.ok d, _) => removeScan s (splitComps comps).2 flags gas d.cluster

/-- `FAT::remove_file`: expected flags exactly OCCUPIED. -/
def remove_file (s : VolState) (comps : List (List Nat)) (gas : Nat) :
    Option (Except FATError VolState) :=
  remove s comps OCCUPIED gas

/-- `FAT::remove_dir`: expected flags exactly OCCUPIED|DIRECTORY. -/
def remove_dir (s : VolState) (comps : List (List Nat)) (gas : Nat) :
    Option (Except FATError VolState) :=
  remove s comps (OCCUPIED ||| DIRECTORY) gas

/-! ## `FAT::bug` and `FAT::check` -/

/-- `FAT::set_cluster_value`: read the FAT sector of `cluster`, set its cell,
write the sector back — i.e. update one FAT cell. -/
def set_cluster_value (s : VolState) (cluster value : Nat) : VolState :=
  { s with fat := fun x => if x = cluster then value else s.fat x }

/-- The walk of `FAT::bug` to the last cluster of the file's chain. -/
def bugWalk (s : VolState) : Nat → Nat → Option (Except FATError Nat)
  | 0, _ => none
  | gas + 1, cluster =>
    if next_cluster s cluster = ENDV then some (.ok cluster)
    else if next_cluster s cluster = BADV then some (.error .CannotRead)
    else bugWalk s gas (next_cluster s cluster)

/-- `FAT::bug`: resolve the path as a regular file, walk to the end of its
chain, and rewrite that END-OF-CHAIN cell to point back at the file's first
cluster. -/
def bug (s : VolState) (comps : List (List Nat)) (gas : Nat) :
    Option (Except FATError VolState) :=
  match find_file s comps filter_find_file gas with
  | none => none
  | some (.error e) => some (.error e)
  | some (.ok f) =>
    match bugWalk s gas f.cluster with
    | none => none
    | some (.error e) => some (.error e)
    | some (.ok last) => some (.ok (set_cluster_value s last f.cluster))

/-- The observable `println!` events of `check` (`depth` is the tab level). -/
inductive CheckEvent where
  | entryName (name : List Nat) (depth : Nat)
  | dirSizeNonzero (depth : Nat)
  | cycle (depth : Nat)
  | badSector (depth : Nat)
deriving DecidableEq

/-- The pending activation of the mutually recursive `check_entry`: the entry
header + chain walk, the chain-walk loop itself, or the recursion over a
cluster's child entries.  A single task type keeps the recursion structural in
the gas (so that the definition computes in the kernel). -/
inductive CheckTask where
  | entry (e : Entry) (tabs : Nat)
  | loop (isDir : Bool) (tabs : Nat) (visited : List Nat) (cluster : Nat)
  | children (tabs : Nat) (es : List Entry)

/-- `FAT::check_entry` (all three phases).  `entry`: print the name, warn on a
directory with non-zero size, then run the chain loop with an empty visited
set.  `loop`: stop at END-OF-CHAIN; report a cycle on a revisited cluster and
return `Ok`; for directories recurse into every OCCUPIED child other than `.`
and `..`; report BAD and return `Ok`.  `children`: left-to-right recursion, a
child's error aborts (`?`).  `none` = out of gas, i.e. the corresponding Rust
execution has not finished within `gas` nested steps. -/
def checkRun (s : VolState) : Nat → CheckTask → Option (Except FATError Unit × List CheckEvent)
  | 0, _ => none
  | gas + 1, .entry e tabs =>
    match checkRun s gas (.loop (e.flags &&& DIRECTORY == DIRECTORY) tabs [] e.cluster) with
    | none => none
    | some (r, evs) =>
      some (r, (CheckEvent.entryName e.name tabs ::
        (if e.flags &&& DIRECTORY == DIRECTORY && e.size != 0 then
          [CheckEvent.dirSizeNonzero tabs] else [])) ++ evs)
  | gas + 1, .loop isDir tabs visited cluster =>
    if cluster = ENDV then some (.ok (), [])
    else if cluster ∈ visited then some (.ok (), [CheckEvent.cycle tabs])
    else
      match (if isDir then checkRun s gas (.children tabs (entriesOf s cluster))
             else some (.ok (), [])) with
      | none => none
      | some (.error er, evs) => some (.error er, evs)
      | some (.ok _, evs) =>
        if next_cluster s cluster = BADV then some (.ok (), evs ++ [CheckEvent.badSector tabs])
        else
          match checkRun s gas (.loop isDir tabs (cluster :: visited) (next_cluster s cluster)) with
          | none => none
          | some (r, evs2) => some (r, evs ++ evs2)
  | _ + 1, .children _ [] => some (.ok (), [])
  | gas + 1, .children tabs (e :: rest) =>
    if e.flags &&& OCCUPIED == OCCUPIED && e.name != [46] && e.name != [46, 46] then
      match checkRun s gas (.entry e (tabs + 1)) with
      | none => none
      | some (.error er, evs) => some (.error er, evs)
      | some (.ok _, evs) =>
        match checkRun s gas (.children tabs rest) with
        | none => none
        | some (r, evs2) => some (r, evs ++ evs2)
    else checkRun s gas (.children tabs rest)

/-- `FAT::check_entry`. -/
def check_entry (s : VolState) (e : Entry) (tabs gas : Nat) :
    Option (Except FATError Unit × List CheckEvent) :=
  checkRun s gas (.entry e tabs)

/-- `FAT::check`: run `check_entry` on the synthetic root entry
`{name: "/", cluster: 1, DIRECTORY}`. -/
def check (s : VolState) (gas : Nat) : Option (Except FATError Unit × List CheckEvent) :=
  checkRun s gas (.entry ⟨[47], 0, 1, DIRECTORY⟩ 0)

/-! ## `FAT::new_file` and `FAT::cat` -/

/-- Outcome of invoking a data operation on a possibly-unformatted volume:
`panic` models the Rust `expect("Image is not formatted!")` /
`expect("Filesystem is not formatted!")` process abort. -/
inductive POutcome (α : Type) where
  | ok (a : α)
  | err (e : FATError)
  | panic
deriving DecidableEq

/-- `FAT::new`: a backing file shorter than 20 bytes, or whose first 20 bytes
fail `Header::from_raw_bytes`, yields an unformatted volume (`header = None`). -/
def FATnew (fileBytes : List Nat) : Option Header :=
  if fileBytes.length < 20 then none
  else
    match Header.fromRawBytes (fileBytes.take 20) with
    | .ok h => some h
    | .error _ => none

/-- `FAT::sector_to_byte` as the running engine executes it: the `expect` on the
absent header panics on an unformatted volume. -/
def sector_to_byteOp (h? : Option Header) (sector : Nat) : POutcome Nat :=
  match h? with
  | none => .panic
  | some h => .ok (sector_to_byte h sector)

/-- `FAT::allocate_clusters` as executed: the header `expect` fires before any
FAT access. -/
def allocate_clustersOp (h? : Option Header) (s : VolState) (count : Nat) :
    POutcome (Nat × (Nat → Nat)) :=
  match h? with
  | none => .panic
  | some _ =>
    match allocate_clusters s count with
    | .ok r => .ok r
    | .error e => .err e

/-- `FAT::find_file` as executed: the loop checks the 12-byte limit on the
first component *before* its first cluster read, so an over-long first
component returns `FilenameTooLong` (and an empty component list falls through
to `FileNotFound`) without ever touching the header; otherwise the first
read of cluster 1 goes through `cluster_to_sector`/`sector_to_byte`, whose
`expect` fires on an unformatted volume before any directory entry is
examined.  (`mkdir`, `new_file`, `copy`, `remove`, `cat` all call `find_file`
before any other volume access, so they abort the same way.)  On a formatted
volume the two early returns coincide with `find_file`'s own results. -/
def find_fileOp (h? : Option Header) (s : VolState) (comps : List (List Nat))
    (filter : Entry → Bool) (gas : Nat) : POutcome (Option (Except FATError Entry)) :=
  match comps with
  | [] => .ok (some (.error .FileNotFound))
  | item :: _ =>
    if 12 < item.length then .ok (some (.error .FilenameTooLong))
    else
      match h? with
      | none => .panic
      | some _ => .ok (find_file s comps filter gas)

/-- An 8-cluster fixture volume for the concrete witnesses: cluster 1 is the
root directory holding `.`, `..` and one further entry `third` (its remaining
125 slots read back as free entries); FAT cell 2 holds `fat2`. -/
def fixVol (fat2 : Nat) (third : Entry) : VolState :=
  ⟨8, fun c => if c = 0 then BADV else if c = 1 then ENDV else if c = 2 then fat2 else 0,
    fun c => if c = 1 then
      Entry.asBytes (dotEntry 1) ++ Entry.asBytes (dotdotEntry 1) ++ Entry.asBytes third
    else []⟩

theorem le4_length (n : Nat) : (le4 n).length = 4 := rfl

theorem le4_lt_256 (n : Nat) : ∀ b ∈ le4 n, b < 256 := by
  intro b hb
  simp only [le4, List.mem_cons, List.not_mem_nil, or_false] at hb
  rcases hb with h | h | h | h <;> subst h <;> omega

theorem readLE32_le4 (n : Nat) (rest : List Nat) :
    readLE32 (le4 n ++ rest) 0 = n % U32 := by
  simp only [readLE32, le4, List.cons_append, List.getD, List.get?_cons_zero,
    List.get?_cons_succ, List.get?, Option.getD_some, U32]
  omega

/-! ## List access helpers -/

theorem getD_append_left (l₁ l₂ : List Nat) (n : Nat) (h : n < l₁.length) :
    (l₁ ++ l₂).getD n 0 = l₁.getD n 0 := by
  simp [List.getD_eq_getElem?_getD, List.getElem?_append, h]

theorem getD_append_right (l₁ l₂ : List Nat) (n : Nat) (h : l₁.length ≤ n) :
    (l₁ ++ l₂).getD n 0 = l₂.getD (n - l₁.length) 0 := by
  simp [List.getD_eq_getElem?_getD, List.getElem?_append_right h]

theorem readLE32_append (X rest : List Nat) (k : Nat) :
    readLE32 (X ++ rest) (X.length + k) = readLE32 rest k := by
  unfold readLE32
  rw [getD_append_right _ _ _ (by omega), getD_append_right _ _ _ (by omega),
    getD_append_right _ _ _ (by omega), getD_append_right _ _ _ (by omega)]
  have e1 : X.length + k - X.length = k := by omega
  have e2 : X.length + k + 1 - X.length = k + 1 := by omega
  have e3 : X.length + k + 2 - X.length = k + 2 := by omega
  have e4 : X.length + k + 3 - X.length = k + 3 := by omega
  rw [e1, e2, e3, e4]

/-! ## C8: the directory-entry codec round-trip -/

/-- **C8, counterexample.**  The claim says decoding strips *only trailing* NULs, so
`decode ∘ encode` would be the identity on every entry whose name is at most 12 bytes.
The entry named `[97, 0]` (two bytes, within the limit) is a counterexample:
`Entry::from_bytes` filters out **every** NUL byte of the name field, so the decoded
entry's name is `[97]`. -/
theorem entry_roundtrip_counterexample :
    ([97, 0] : List Nat).length ≤ 12 ∧
      Entry.fromBytes? (Entry.asBytes ⟨[97, 0], 0, 0, OCCUPIED⟩) ≠
        some ⟨[97, 0], 0, 0, OCCUPIED⟩ := by
  refine ⟨by norm_num, ?_⟩
  intro hcontra
  have : Entry.fromBytes? (Entry.asBytes ⟨[97, 0], 0, 0, OCCUPIED⟩) =
      some ⟨[97], 0, 0, OCCUPIED⟩ := by rfl
  rw [this] at hcontra
  simp at hcontra

theorem fromBytes_of_wellformed (nm : List Nat) (sz cl fl : Nat)
    (hlen : nm.length ≤ 12) (hz : 0 ∉ nm) (hs : sz < U32) (hc : cl < U32) (hf : fl < U32) :
    Entry.fromBytes? ((nm ++ List.replicate (12 - nm.length) 0) ++
      (le4 sz ++ (le4 cl ++ (le4 fl ++ List.replicate 8 0)))) = some ⟨nm, sz, cl, fl⟩ := by
  have hX : (nm ++ List.replicate (12 - nm.length) 0).length = 12 := by
    simp; omega
  have hlen32 : ((nm ++ List.replicate (12 - nm.length) 0) ++
      (le4 sz ++ (le4 cl ++ (le4 fl ++ List.replicate 8 0)))).length = 32 := by
    simp [le4]; omega
  have htake : ((nm ++ List.replicate (12 - nm.length) 0) ++
        (le4 sz ++ (le4 cl ++ (le4 fl ++ List.replicate 8 0)))).take 12 =
      nm ++ List.replicate (12 - nm.length) 0 :=
    List.take_left' hX
  have hfilter : ((nm ++ List.replicate (12 - nm.length) 0).filter (fun b => b ≠ 0)) = nm := by
    rw [List.filter_append]
    have h1 : nm.filter (fun b => b ≠ 0) = nm := by
      rw [List.filter_eq_self]
      intro a ha
      simp only [ne_eq, decide_eq_true_eq]
      intro h0
      exact hz (h0 ▸ ha)
    have h2 : (List.replicate (12 - nm.length) 0).filter (fun b => (b : Nat) ≠ 0) = [] := by
      rw [List.filter_eq_nil_iff]
      intro a ha
      simp [List.eq_of_mem_replicate ha]
    rw [h1, h2, List.append_nil]
  have h12 : readLE32 ((nm ++ List.replicate (12 - nm.length) 0) ++
      (le4 sz ++ (le4 cl ++ (le4 fl ++ List.replicate 8 0)))) 12 = sz := by
    have h := readLE32_append (nm ++ List.replicate (12 - nm.length) 0)
      (le4 sz ++ (le4 cl ++ (le4 fl ++ List.replicate 8 0))) 0
    rw [hX] at h
    simpa [readLE32_le4, Nat.mod_eq_of_lt hs] using h
  have h16 : readLE32 ((nm ++ List.replicate (12 - nm.length) 0) ++
      (le4 sz ++ (le4 cl ++ (le4 fl ++ List.replicate 8 0)))) 16 = cl := by
    rw [← List.append_assoc]
    have hX2 : ((nm ++ List.replicate (12 - nm.length) 0) ++ le4 sz).length = 16 := by
      simp [le4]; omega
    have h := readLE32_append ((nm ++ List.replicate (12 - nm.length) 0) ++ le4 sz)
      (le4 cl ++ (le4 fl ++ List.replicate 8 0)) 0
    rw [hX2] at h
    simpa [readLE32_le4, Nat.mod_eq_of_lt hc] using h
  have h20 : readLE32 ((nm ++ List.replicate (12 - nm.length) 0) ++
      (le4 sz ++ (le4 cl ++ (le4 fl ++ List.replicate 8 0)))) 20 = fl := by
    rw [← List.append_assoc, ← List.append_assoc]
    have hX3 : (((nm ++ List.replicate (12 - nm.length) 0) ++ le4 sz) ++ le4 cl).length = 20 := by
      simp [le4]; omega
    have h := readLE32_append (((nm ++ List.replicate (12 - nm.length) 0) ++ le4 sz) ++ le4 cl)
      (le4 fl ++ List.replicate 8 0) 0
    rw [hX3] at h
    simpa [readLE32_le4, Nat.mod_eq_of_lt hf] using h
  unfold Entry.fromBytes?
  rw [if_pos (by rw [hlen32]; omega)]
  rw [htake, hfilter, h12, h16, h20]

/-- **C8, amended.**  Decoding the 32-byte encoding of an entry recovers the entry
exactly, provided the name (at most 12 bytes) contains **no** NUL byte — decoding
removes all NUL bytes of the name field, so the identity holds exactly on NUL-free
names, not on all names as claimed.  The `< 2^32` bounds state that the numeric
fields are `u32` values, and are implicit in the Rust types. -/
theorem entry_roundtrip (e : Entry) (hlen : e.name.length ≤ 12) (hz : 0 ∉ e.name)
    (hs : e.size < U32) (hc : e.cluster < U32) (hf : e.flags < U32) :
    Entry.fromBytes? e.asBytes = some e := by
  obtain ⟨nm, sz, cl, fl⟩ := e
  have hgrp : Entry.asBytes ⟨nm, sz, cl, fl⟩ =
      (nm ++ List.replicate (12 - nm.length) 0) ++
        (le4 sz ++ (le4 cl ++ (le4 fl ++ List.replicate 8 0))) := by
    simp [Entry.asBytes]
  rw [hgrp]
  exact fromBytes_of_wellformed nm sz cl fl hlen hz hs hc hf

/-- Concrete instance of `entry_roundtrip` (name `[97, 98]`, size 3, cluster 5, occupied). -/
theorem entry_roundtrip_witness :
    Entry.fromBytes? (Entry.asBytes ⟨[97, 98], 3, 5, 1⟩) = some ⟨[97, 98], 3, 5, 1⟩ :=
  entry_roundtrip ⟨[97, 98], 3, 5, 1⟩ (by norm_num) (by norm_num) (by decide) (by decide)
    (by decide)

/-! ## C4: header construction and checksum -/

/-- **C4.**  For every capacity that is a multiple of 512, `Header::new` yields a
header whose five `u32` fields sum to 0 modulo `2^32`, with
`checksum = (2^32 − 1) − (bps + spc + sc + fc) + 1` in wrapping arithmetic; decoding
a 20-byte string succeeds exactly when the wrap-around sum of the five decoded
fields is 0 (`BadChecksum` otherwise), and any other length yields `BadBytes`. -/
theorem header_checksum_spec (cap : Nat) (bs : List Nat) (hcap : cap % 512 = 0) :
    (∃ h, Header.new? cap = .ok h ∧
        (h.bytes_per_sector + h.sectors_per_cluster + h.sector_count + h.fat_count +
            h.checksum) % U32 = 0 ∧
        h.checksum =
          ((U32 - 1) -
              (h.bytes_per_sector + h.sectors_per_cluster + h.sector_count + h.fat_count) % U32 +
            1) % U32) ∧
      (bs.length = 20 →
        Header.fromRawBytes bs =
          if (readLE32 bs 0 + readLE32 bs 4 + readLE32 bs 8 + readLE32 bs 12 + readLE32 bs 16) %
                U32 = 0 then
            .ok ⟨readLE32 bs 0, readLE32 bs 4, readLE32 bs 8, readLE32 bs 12, readLE32 bs 16⟩
          else .error .BadChecksum) ∧
      (bs.length ≠ 20 → Header.fromRawBytes bs = .error .BadBytes) := by
  refine ⟨?_, ?_, ?_⟩
  · refine ⟨Header.updateChecksum ⟨512, 8, capacity_to_sector_count cap, 2, 0⟩, ?_, ?_, ?_⟩
    · simp [Header.new?, hcap]
    · have hsc : capacity_to_sector_count cap < 8388608 := by
        unfold capacity_to_sector_count U32
        omega
      simp only [Header.updateChecksum, U32] at *
      omega
    · rfl
  · intro h20
    unfold Header.fromRawBytes
    rw [if_neg (by omega)]
    simp only [Header.checkChecksum]
    have hord : (readLE32 bs 16 + readLE32 bs 0 + readLE32 bs 4 + readLE32 bs 8 +
        readLE32 bs 12) % U32 =
        (readLE32 bs 0 + readLE32 bs 4 + readLE32 bs 8 + readLE32 bs 12 + readLE32 bs 16) %
          U32 := by ring_nf
    rw [hord]
    by_cases hsum : (readLE32 bs 0 + readLE32 bs 4 + readLE32 bs 8 + readLE32 bs 12 +
        readLE32 bs 16) % U32 = 0
    · rw [if_pos hsum, if_pos hsum]
    · rw [if_neg hsum, if_neg hsum]
  · intro hne
    simp [Header.fromRawBytes, hne]

/-- Concrete instance of `header_checksum_spec` at capacity 1 MiB and the empty byte string. -/
theorem header_checksum_spec_witness :
    (∃ h, Header.new? 1048576 = .ok h ∧
        (h.bytes_per_sector + h.sectors_per_cluster + h.sector_count + h.fat_count +
            h.checksum) % U32 = 0 ∧
        h.checksum =
          ((U32 - 1) -
              (h.bytes_per_sector + h.sectors_per_cluster + h.sector_count + h.fat_count) % U32 +
            1) % U32) ∧
      (([] : List Nat).length = 20 →
        Header.fromRawBytes [] =
          if (readLE32 [] 0 + readLE32 [] 4 + readLE32 [] 8 + readLE32 [] 12 + readLE32 [] 16) %
                U32 = 0 then
            .ok ⟨readLE32 [] 0, readLE32 [] 4, readLE32 [] 8, readLE32 [] 12, readLE32 [] 16⟩
          else .error .BadChecksum) ∧
      (([] : List Nat).length ≠ 20 → Header.fromRawBytes [] = .error .BadBytes) :=
  header_checksum_spec 1048576 [] (by norm_num)

/-! ## C2: location of the data region -/

/-- **C2, counterexample.**  The claim places the data region at sector `1 + 2·F`
with `F = ⌈cluster_count · 4 / 512⌉` even when `cluster_count · 4` is not a
multiple of 512.  At capacity 262144 (512 sectors, 64 clusters) the code computes
`first_data_sector = 1 + 2·64/128 = 2`, while the claimed formula gives
`1 + 2·⌈256/512⌉ = 3`. -/
theorem first_data_sector_counterexample :
    Header.new? 262144 = .ok ⟨512, 8, 512, 2, 4294966262⟩ ∧
      first_data_sector ⟨512, 8, 512, 2, 4294966262⟩ = 2 ∧
      1 + 2 * ((Header.clusterCount ⟨512, 8, 512, 2, 4294966262⟩ * 4 + 511) / 512) = 3 :=
  ⟨rfl, rfl, rfl⟩

/-- **C2, amended.**  For every header built by `Header::new`, the data region
begins at sector `1 + ⌊2 · cluster_count / 128⌋` (integer division, i.e. with the
FAT size *rounded down*), data cluster `c ≥ 1` is addressed at sector
`first_data_sector + (c − 1)·8`, and the claimed formula `1 + 2·⌈cluster_count·4/512⌉`
agrees with the code exactly when `cluster_count` is a multiple of 128 (i.e. when
`cluster_count × 4` is a multiple of 512) — not in general. -/
theorem data_region_layout (cap : Nat) (h : Header) (c : Nat)
    (hnew : Header.new? cap = .ok h) (_hc : 1 ≤ c) :
    first_data_sector h = 1 + 2 * h.clusterCount / 128 ∧
      cluster_to_sector h c = first_data_sector h + (c - 1) * 8 ∧
      (first_data_sector h = 1 + 2 * ((h.clusterCount * 4 + 511) / 512) ↔
        h.clusterCount % 128 = 0) := by
  have hfields : h.bytes_per_sector = 512 ∧ h.sectors_per_cluster = 8 ∧ h.fat_count = 2 := by
    by_cases hcap : cap % 512 ≠ 0
    · simp [Header.new?, hcap] at hnew
    · simp only [Header.new?, hcap, if_false] at hnew
      cases hnew
      exact ⟨rfl, rfl, rfl⟩
  obtain ⟨hbps, hspc, hfc⟩ := hfields
  refine ⟨?_, ?_, ?_⟩
  · simp [first_data_sector, Header.clusterCount, hbps, hspc, hfc]
  · simp [cluster_to_sector, hspc]
  · simp only [first_data_sector, Header.clusterCount, hbps, hspc, hfc]
    constructor
    · intro heq
      omega
    · intro hmod
      omega

theorem writeBytes_below (d : Disk) (off : Nat) (bs : List Nat) (i : Nat) (h : i < off) :
    writeBytes d off bs i = d i := by
  simp only [writeBytes]
  rw [if_neg (by omega)]

theorem writeBytes_getD (d : Disk) (off : Nat) (bs : List Nat) (i : Nat) (h : i < bs.length) :
    writeBytes d off bs (off + i) = bs.getD i 0 := by
  simp only [writeBytes]
  rw [if_pos (by omega)]
  congr 1
  omega

theorem readLE32d_writeBytes8 (d : Disk) (off a b : Nat) (ha : a < U32) (hb : b < U32) :
    readLE32d (writeBytes d off (le4 a ++ le4 b)) off = a ∧
      readLE32d (writeBytes d off (le4 a ++ le4 b)) (off + 4) = b := by
  have hlen : (le4 a ++ le4 b).length = 8 := rfl
  have g : ∀ i, i < 8 → writeBytes d off (le4 a ++ le4 b) (off + i) =
      (le4 a ++ le4 b).getD i 0 := fun i hi => writeBytes_getD d off _ i (by rw [hlen]; omega)
  have g0 : writeBytes d off (le4 a ++ le4 b) off = (le4 a ++ le4 b).getD 0 0 := by
    have := g 0 (by omega)
    simpa using this
  constructor
  · unfold readLE32d
    rw [g0, g 1 (by omega), g 2 (by omega), g 3 (by omega)]
    simp only [le4, List.cons_append, List.getD, List.get?, Option.getD_some]
    unfold U32 at ha
    omega
  · unfold readLE32d
    have e5 : off + 4 + 1 = off + 5 := by omega
    have e6 : off + 4 + 2 = off + 6 := by omega
    have e7 : off + 4 + 3 = off + 7 := by omega
    rw [e5, e6, e7, g 4 (by omega), g 5 (by omega), g 6 (by omega), g 7 (by omega)]
    simp only [le4, List.cons_append, List.getD, List.get?, Option.getD_some]
    unfold U32 at hb
    omega

/-! ## C6: `format` seeding of the two FATs -/

theorem chunksN_length (k : Nat) : ∀ bs : List Nat, bs.length = 32 * k →
    (chunksN k bs).length = k := by
  induction k with
  | zero => intro bs _; rfl
  | succ k ih =>
    intro bs h
    have hne : bs ≠ [] := by
      intro he
      subst he
      simp at h
    simp only [chunksN, if_neg hne, List.length_cons]
    rw [ih (bs.drop 32) (by rw [List.length_drop, h]; omega)]

theorem asBytes_length (e : Entry) (h : e.name.length ≤ 12) : (Entry.asBytes e).length = 32 := by
  simp only [Entry.asBytes, List.length_append, List.length_replicate, le4_length]
  omega

theorem readLE32d_writeBytes_at (d : Disk) (off : Nat) (bs : List Nat) (h4 : 4 ≤ bs.length) :
    readLE32d (writeBytes d off bs) off = readLE32 bs 0 := by
  unfold readLE32d readLE32
  have h0 : writeBytes d off bs off = bs.getD 0 0 := by
    have := writeBytes_getD d off bs 0 (by omega)
    simpa using this
  rw [h0, writeBytes_getD d off bs 1 (by omega), writeBytes_getD d off bs 2 (by omega),
    writeBytes_getD d off bs 3 (by omega)]

theorem readLE32d_writeBytes_at4 (d : Disk) (off : Nat) (bs : List Nat) (h8 : 8 ≤ bs.length) :
    readLE32d (writeBytes d off bs) (off + 4) = readLE32 bs 4 := by
  unfold readLE32d readLE32
  have e5 : off + 4 + 1 = off + 5 := by omega
  have e6 : off + 4 + 2 = off + 6 := by omega
  have e7 : off + 4 + 3 = off + 7 := by omega
  rw [e5, e6, e7, writeBytes_getD d off bs 4 (by omega), writeBytes_getD d off bs 5 (by omega),
    writeBytes_getD d off bs 6 (by omega), writeBytes_getD d off bs 7 (by omega)]

/-- **C6, counterexample.**  At capacity 524288 (1024 sectors, 128 clusters, so
`F = ⌈128·4/512⌉ = 1` and FAT #2 starts at sector `F + 1 = 2`), the first two
cells at the start of sector 2 after `format` are `(0, 0)` — not `(BAD, END)` as
claimed: the code writes the mirror seed at sector `2 + ⌊cluster_count/128⌋ = 3`. -/
theorem fat2_mirror_counterexample :
    (format 524288 zeroDisk).map
        (fun p => (readLE32d p.2 ((1 + (p.1.clusterCount * 4 + 511) / 512) * 512),
          readLE32d p.2 ((1 + (p.1.clusterCount * 4 + 511) / 512) * 512 + 4))) =
      .ok (0, 0) ∧ (0 : Nat) ≠ BADV ∧ (0 : Nat) ≠ ENDV :=
  ⟨rfl, by decide, by decide⟩

/-- **C6, amended.**  After `format` succeeds, FAT #1's cells 0 and 1 (the
start of sector 1) hold BAD and END-OF-CHAIN **provided** `cluster_count ≥ 64`;
for `cluster_count < 64` the data region starts at sector 1, so the
root-directory-cluster write lands on the seed and cell 0 reads back 46 (the
`.` entry's name byte) and cell 1 reads 0.  The mirror seed is written at the
start of sector `2 + ⌊cluster_count/128⌋`, which is the first sector of FAT #2
(`F + 1`) only when `cluster_count` is **not** a multiple of 128 (sector
`F + 2` otherwise), and it survives the root-cluster write only for
`cluster_count ≥ 192`. -/
theorem format_seed_spec (cap : Nat) (d : Disk) (hcap : cap % 512 = 0) :
    ∃ h dsk, format cap d = .ok (h, dsk) ∧
      (64 ≤ h.clusterCount →
        readLE32d dsk 512 = BADV ∧ readLE32d dsk 516 = ENDV) ∧
      (h.clusterCount < 64 →
        readLE32d dsk 512 = 46 ∧ readLE32d dsk 516 = 0) ∧
      (192 ≤ h.clusterCount →
        readLE32d dsk ((2 + h.clusterCount / 128) * 512) = BADV ∧
        readLE32d dsk ((2 + h.clusterCount / 128) * 512 + 4) = ENDV) ∧
      (h.clusterCount % 128 = 0 →
        2 + h.clusterCount / 128 = 2 + (h.clusterCount * 4 + 511) / 512) ∧
      (h.clusterCount % 128 ≠ 0 →
        2 + h.clusterCount / 128 = 1 + (h.clusterCount * 4 + 511) / 512) := by
  set sc := capacity_to_sector_count cap with hsc
  set h : Header := Header.updateChecksum ⟨512, 8, sc, 2, 0⟩ with hh
  have hfields : h.bytes_per_sector = 512 ∧ h.sectors_per_cluster = 8 ∧
      h.sector_count = sc ∧ h.fat_count = 2 := ⟨rfl, rfl, rfl, rfl⟩
  have hccdef : h.clusterCount = sc / 8 := rfl
  refine ⟨h, write_header h d, ?_, ?_⟩
  · simp [format, Header.new?, hcap, hh]
  · -- unfold the write_header layers
    have hBADlt : BADV < U32 := by decide
    have hENDlt : ENDV < U32 := by decide
    set cc := sc / 8 with hccv
    -- the byte offsets of the three writes that matter
    have hfs : fat_sectors h = 1 + 4 * cc / 512 := rfl
    have hmirror : (1 + fat_sectors h) * h.bytes_per_sector = (2 + cc / 128) * 512 := by
      rw [hfs, hfields.1]
      have : 4 * cc / 512 = cc / 128 := by omega
      rw [this]
      ring
    have hroot : sector_to_byte h (cluster_to_sector h 1) = (1 + 2 * cc / 128) * 512 := by
      simp only [sector_to_byte, cluster_to_sector, first_data_sector, hfields.1, hfields.2.1,
        hfields.2.2.1, hfields.2.2.2]
      have h4 : (512 : Nat) / 4 = 128 := by norm_num
      rw [h4]
      ring_nf
    -- the FAT seed and the mirror seed never collide
    have hb2 : (512 : Nat) + 8 ≤ (2 + cc / 128) * 512 := by nlinarith [Nat.zero_le (cc / 128)]
    unfold write_header
    simp only
    rw [hroot, hmirror]
    set d1 := writeBytes d 0 (le4 h.bytes_per_sector ++ le4 h.sectors_per_cluster ++
      le4 h.sector_count ++ le4 h.fat_count ++ le4 h.checksum) with hd1
    set d2 := zeroBytes d1 h.bytes_per_sector (h.sector_count * h.bytes_per_sector) with hd2
    set d3 := writeBytes d2 h.bytes_per_sector (le4 BADV ++ le4 ENDV) with hd3
    set d4 := writeBytes d3 ((2 + cc / 128) * 512) (le4 BADV ++ le4 ENDV) with hd4
    set blob := encodeEntries (((decodeEntries (readBytes d4 ((1 + 2 * cc / 128) * 512) 4096)).set
      0 (dotEntry 1)).set 1 (dotdotEntry 1)) with hblob
    have hd5below : ∀ i, i < (1 + 2 * cc / 128) * 512 →
        writeBytes d4 ((1 + 2 * cc / 128) * 512) blob i = d4 i := fun i hi =>
      writeBytes_below _ _ _ _ hi
    refine ⟨?_, ?_, ?_, ?_, ?_⟩
    · -- cc ≥ 64: bytes 512..519 are below both later writes
      intro h64
      have h64' : 64 ≤ cc := h64
      have hroothi : 1024 ≤ (1 + 2 * cc / 128) * 512 := by
        have : 1 ≤ 2 * cc / 128 := by omega
        nlinarith [this]
      have hlow : ∀ i, 512 ≤ i → i < 520 →
          writeBytes d4 ((1 + 2 * cc / 128) * 512) blob i = d3 i := by
        intro i hi1 hi2
        rw [hd5below i (by omega), hd4, writeBytes_below _ _ _ _ (by omega)]
      have h3 := readLE32d_writeBytes8 d2 h.bytes_per_sector BADV ENDV hBADlt hENDlt
      rw [hfields.1] at h3
      constructor
      · unfold readLE32d
        rw [hlow 512 (by omega) (by omega), hlow 513 (by omega) (by omega),
          hlow 514 (by omega) (by omega), hlow 515 (by omega) (by omega)]
        have := h3.1
        unfold readLE32d at this
        rw [hd3, hfields.1]
        exact this
      · unfold readLE32d
        rw [hlow 516 (by omega) (by omega), hlow 517 (by omega) (by omega),
          hlow 518 (by omega) (by omega), hlow 519 (by omega) (by omega)]
        have := h3.2
        unfold readLE32d at this
        rw [hd3, hfields.1]
        have e : (512 : Nat) + 4 = 516 := by omega
        rw [e] at this
        exact this
    · -- cc < 64: the root cluster write lands at byte 512 and overwrites the seed
      intro hlt
      have hlt' : cc < 64 := hlt
      have h20 : 2 * cc / 128 = 0 := by omega
      have hro : (1 + 2 * cc / 128) * 512 = 512 := by rw [h20]
      have hL : (decodeEntries (readBytes d4 ((1 + 2 * cc / 128) * 512) 4096)).length = 128 := by
        simp only [decodeEntries, List.length_map, chunks32]
        exact chunksN_length 128 _ (by simp [readBytes])
      obtain ⟨rest2, hblob2⟩ : ∃ rest2, blob = Entry.asBytes (dotEntry 1) ++ rest2 := by
        rcases hsh : decodeEntries (readBytes d4 ((1 + 2 * cc / 128) * 512) 4096) with
          - | ⟨a, t1⟩
        · rw [hsh] at hL
          simp at hL
        · rcases ht1 : t1 with - | ⟨b, t⟩
          · rw [hsh, ht1] at hL
            simp at hL
          · refine ⟨encodeEntries (dotdotEntry 1 :: t), ?_⟩
            rw [hblob, hsh, ht1]
            simp [encodeEntries]
      have hdot32 : 4 ≤ (Entry.asBytes (dotEntry 1) ++ rest2).length ∧
          8 ≤ (Entry.asBytes (dotEntry 1) ++ rest2).length := by
        have := asBytes_length (dotEntry 1) (by decide)
        constructor <;> (simp only [List.length_append, this]; omega)
      have hhead : Entry.asBytes (dotEntry 1) = 46 :: 0 :: 0 :: 0 :: 0 :: 0 :: 0 :: 0 ::
          (Entry.asBytes (dotEntry 1)).drop 8 := by decide
      constructor
      · rw [hro, hblob2, readLE32d_writeBytes_at d4 512 _ hdot32.1, hhead]
        rfl
      · have e : (516 : Nat) = 512 + 4 := by omega
        rw [hro, e, hblob2, readLE32d_writeBytes_at4 d4 512 _ hdot32.2, hhead]
        rfl
    · -- cc ≥ 192: the mirror seed is below the root write
      intro h192
      have h192' : 192 ≤ cc := h192
      have hb1 : (2 + cc / 128) * 512 + 8 ≤ (1 + 2 * cc / 128) * 512 := by
        have : 2 + cc / 128 + 1 ≤ 1 + 2 * cc / 128 := by omega
        nlinarith [this]
      have hlow : ∀ i, (2 + cc / 128) * 512 ≤ i → i < (2 + cc / 128) * 512 + 8 →
          writeBytes d4 ((1 + 2 * cc / 128) * 512) blob i = d4 i := by
        intro i hi1 hi2
        exact hd5below i (by omega)
      have h4 := readLE32d_writeBytes8 d3 ((2 + cc / 128) * 512) BADV ENDV hBADlt hENDlt
      constructor
      · unfold readLE32d
        rw [hlow _ (by omega) (by omega), hlow _ (by omega) (by omega),
          hlow _ (by omega) (by omega), hlow _ (by omega) (by omega)]
        have := h4.1
        unfold readLE32d at this
        rw [hd4]
        exact this
      · unfold readLE32d
        rw [hlow _ (by omega) (by omega), hlow _ (by omega) (by omega),
          hlow _ (by omega) (by omega), hlow _ (by omega) (by omega)]
        have := h4.2
        unfold readLE32d at this
        rw [hd4]
        exact this
    · intro hmod
      omega
    · intro hmod
      omega

/-- Concrete instance of `format_seed_spec` at capacity 819200 bytes
(1600 sectors, 200 clusters). -/
theorem format_seed_spec_witness :
    ∃ h dsk, format 819200 zeroDisk = .ok (h, dsk) ∧
      (64 ≤ h.clusterCount →
        readLE32d dsk 512 = BADV ∧ readLE32d dsk 516 = ENDV) ∧
      (h.clusterCount < 64 →
        readLE32d dsk 512 = 46 ∧ readLE32d dsk 516 = 0) ∧
      (192 ≤ h.clusterCount →
        readLE32d dsk ((2 + h.clusterCount / 128) * 512) = BADV ∧
        readLE32d dsk ((2 + h.clusterCount / 128) * 512 + 4) = ENDV) ∧
      (h.clusterCount % 128 = 0 →
        2 + h.clusterCount / 128 = 2 + (h.clusterCount * 4 + 511) / 512) ∧
      (h.clusterCount % 128 ≠ 0 →
        2 + h.clusterCount / 128 = 1 + (h.clusterCount * 4 + 511) / 512) :=
  format_seed_spec 819200 zeroDisk (by norm_num)

/-! ## Allocator correctness (C5) -/

theorem mgrGet_set (fat : Nat → Nat) (m : Mgr) (c v x : Nat) :
    mgrGet fat (mgrSet m c v) x = if x = c then v else mgrGet fat m x := by
  unfold mgrGet mgrSet
  rw [List.lookup]
  by_cases h : x = c
  · subst h
    simp
  · have hbe : (x == c) = false := by
      simp [h]
    rw [hbe, if_neg h]

theorem freesBelow_succ (fat : Nat → Nat) (k : Nat) :
    freesBelow fat (k + 1) = freesBelow fat k ++ if fat k = 0 then [k] else [] := by
  unfold freesBelow
  rw [List.range_succ, List.filter_append]
  congr 1
  by_cases h : fat k = 0 <;> simp [h]

theorem freesBelow_mem (fat : Nat → Nat) (k x : Nat) (h : x ∈ freesBelow fat k) :
    x < k ∧ fat x = 0 := by
  unfold freesBelow at h
  simp only [List.mem_filter, List.mem_range, beq_iff_eq] at h
  exact h

theorem freesBelow_sorted (fat : Nat → Nat) (k : Nat) :
    (freesBelow fat k).Pairwise (· < ·) :=
  List.Pairwise.sublist (List.filter_sublist _) (List.pairwise_lt_range k)

theorem freesBelow_extend (fat : Nat → Nat) (a : Nat) : ∀ b, a ≤ b →
    ∃ rest, freesBelow fat b = freesBelow fat a ++ rest := by
  intro b
  induction b with
  | zero =>
    intro h
    have ha : a = 0 := Nat.le_zero.mp h
    exact ⟨[], by rw [ha]; simp⟩
  | succ k ih =>
    intro h
    by_cases hak : a = k + 1
    · exact ⟨[], by rw [hak]; simp⟩
    · obtain ⟨r, hr⟩ := ih (by omega)
      exact ⟨r ++ if fat k = 0 then [k] else [],
        by rw [freesBelow_succ, hr, List.append_assoc]⟩

theorem headD_append_of_ne_nil (l r : List Nat) (d : Nat) (h : l ≠ []) :
    (l ++ r).headD d = l.headD d := by
  cases l with
  | nil => exact absurd rfl h
  | cons a t => rfl

theorem headD_mem (l : List Nat) (d : Nat) (h : l ≠ []) : l.headD d ∈ l := by
  cases l with
  | nil => exact absurd rfl h
  | cons a t => exact List.mem_cons_self _ _

theorem lastD_nil (d : Nat) : lastD [] d = d := rfl

theorem lastD_single (a d : Nat) : lastD [a] d = a := rfl

theorem lastD_cons2 (a b : Nat) (l : List Nat) (d : Nat) :
    lastD (a :: b :: l) d = lastD (b :: l) d := rfl

theorem lastD_append_single (l : List Nat) (a d : Nat) : lastD (l ++ [a]) d = a := by
  induction l with
  | nil => rfl
  | cons x t ih =>
    cases t with
    | nil => rfl
    | cons y t2 => simpa using ih

theorem lastD_mem (l : List Nat) (d : Nat) (h : l ≠ []) : lastD l d ∈ l := by
  induction l with
  | nil => exact absurd rfl h
  | cons a t ih =>
    cases t with
    | nil => exact List.mem_singleton_self a
    | cons b t2 =>
      rw [lastD_cons2]
      exact List.mem_cons_of_mem a (ih (by simp))

theorem linkFun_not_mem (fat : Nat → Nat) (cs : List Nat) : ∀ x, x ∉ cs →
    linkFun fat cs x = fat x := by
  induction cs with
  | nil => intro x _; rfl
  | cons a rest ih =>
    intro x h
    cases rest with
    | nil => rfl
    | cons b rest2 =>
      show (if x = a then b else linkFun fat (b :: rest2) x) = fat x
      rw [if_neg (fun hx => h (by rw [hx]; exact List.mem_cons_self _ _))]
      exact ih x (fun hx => h (List.mem_cons_of_mem a hx))

theorem linkFun_snoc (fat : Nat → Nat) (cs : List Nat) : ∀ (w x : Nat), cs ≠ [] →
    cs.Pairwise (· < ·) → (∀ c ∈ cs, c < w) →
    linkFun fat (cs ++ [w]) x = if x = lastD cs 0 then w else linkFun fat cs x := by
  induction cs with
  | nil => intro w x h; exact absurd rfl h
  | cons a rest ih =>
    intro w x _ hpw hlt
    cases rest with
    | nil =>
      show (if x = a then w else linkFun fat [w] x) = if x = a then w else linkFun fat [a] x
      by_cases hxa : x = a
      · rw [if_pos hxa, if_pos hxa]
      · rw [if_neg hxa, if_neg hxa]
        rfl
    | cons b rest2 =>
      have hg : lastD (a :: b :: rest2) 0 = lastD (b :: rest2) 0 := rfl
      have hgmem : lastD (b :: rest2) 0 ∈ b :: rest2 := lastD_mem _ _ (by simp)
      have hane : a ≠ lastD (b :: rest2) 0 := by
        have halt : a < lastD (b :: rest2) 0 := (List.pairwise_cons.mp hpw).1 _ hgmem
        omega
      show (if x = a then b else linkFun fat ((b :: rest2) ++ [w]) x) =
        if x = lastD (a :: b :: rest2) 0 then w
        else (if x = a then b else linkFun fat (b :: rest2) x)
      rw [hg]
      by_cases hxa : x = a
      · subst hxa
        rw [if_pos rfl, if_neg hane, if_pos rfl]
      · rw [if_neg hxa]
        rw [ih w x (by simp) (List.pairwise_cons.mp hpw).2
          (fun c hc => hlt c (List.mem_cons_of_mem a hc))]
        by_cases hxg : x = lastD (b :: rest2) 0
        · rw [if_pos hxg, if_pos hxg]
        · rw [if_neg hxg, if_neg hxg, if_neg hxa]

theorem chainFat_not_mem (fat : Nat → Nat) (cs : List Nat) : ∀ x, x ∉ cs →
    chainFat fat cs x = fat x := by
  induction cs with
  | nil => intro x _; rfl
  | cons a rest ih =>
    intro x h
    cases rest with
    | nil =>
      show (if x = a then ENDV else fat x) = fat x
      rw [if_neg (fun hx => h (by rw [hx]; exact List.mem_singleton_self _))]
    | cons b rest2 =>
      show (if x = a then b else chainFat fat (b :: rest2) x) = fat x
      rw [if_neg (fun hx => h (by rw [hx]; exact List.mem_cons_self _ _))]
      exact ih x (fun hx => h (List.mem_cons_of_mem a hx))

theorem chainFat_snoc (fat : Nat → Nat) (cs : List Nat) : ∀ (w x : Nat), cs ≠ [] →
    cs.Pairwise (· < ·) → (∀ c ∈ cs, c < w) →
    chainFat fat (cs ++ [w]) x =
      if x = w then ENDV else if x = lastD cs 0 then w else linkFun fat cs x := by
  induction cs with
  | nil => intro w x h; exact absurd rfl h
  | cons a rest ih =>
    intro w x _ hpw hlt
    cases rest with
    | nil =>
      have haw : a < w := hlt a (by simp)
      show (if x = a then w else chainFat fat [w] x) = _
      by_cases hxa : x = a
      · subst hxa
        rw [if_pos rfl, if_neg (by omega)]
        rw [show lastD [x] 0 = x from rfl, if_pos rfl]
      · rw [if_neg hxa]
        show (if x = w then ENDV else fat x) = _
        by_cases hxw : x = w
        · rw [if_pos hxw, if_pos hxw]
        · rw [if_neg hxw, if_neg hxw]
          rw [show lastD [a] 0 = a from rfl, if_neg hxa]
          rfl
    | cons b rest2 =>
      have hg : lastD (a :: b :: rest2) 0 = lastD (b :: rest2) 0 := rfl
      have hgmem : lastD (b :: rest2) 0 ∈ b :: rest2 := lastD_mem _ _ (by simp)
      have hane : a ≠ lastD (b :: rest2) 0 := by
        have halt : a < lastD (b :: rest2) 0 := (List.pairwise_cons.mp hpw).1 _ hgmem
        omega
      have haw : a < w := hlt a (by simp)
      show (if x = a then b else chainFat fat ((b :: rest2) ++ [w]) x) = _
      rw [hg]
      by_cases hxa : x = a
      · subst hxa
        rw [if_pos rfl, if_neg (by omega), if_neg hane]
        show b = if x = x then b else linkFun fat (b :: rest2) x
        rw [if_pos rfl]
      · rw [if_neg hxa]
        rw [ih w x (by simp) (List.pairwise_cons.mp hpw).2
          (fun c hc => hlt c (List.mem_cons_of_mem a hc))]
        by_cases hxw : x = w
        · rw [if_pos hxw, if_pos hxw]
        · rw [if_neg hxw, if_neg hxw]
          by_cases hxg : x = lastD (b :: rest2) 0
          · rw [if_pos hxg, if_pos hxg]
          · rw [if_neg hxg, if_neg hxg]
            show linkFun fat (b :: rest2) x =
              if x = a then b else linkFun fat (b :: rest2) x
            rw [if_neg hxa]

theorem chain_congr (f g : Nat → Nat) (c : Nat) (cs : List Nat)
    (hfg : ∀ x ∈ cs, f x = g x) (h : Chain f c cs) : Chain g c cs := by
  induction h with
  | single c hc =>
    exact Chain.single c ((hfg c (by simp)) ▸ hc)
  | cons c cs2 hch hne ih =>
    have hfc : f c = g c := hfg c (by simp)
    have := ih (fun x hx => hfg x (List.mem_cons_of_mem c hx))
    rw [hfc] at this
    exact Chain.cons c cs2 this (hfc ▸ hne)

theorem chainFat_chain (fat : Nat → Nat) (cs : List Nat) : cs ≠ [] →
    cs.Pairwise (· < ·) → (∀ c ∈ cs, c < BADV) →
    Chain (chainFat fat cs) (cs.headD 0) cs := by
  induction cs with
  | nil => intro h; exact absurd rfl h
  | cons a rest ih =>
    intro _ hpw hbd
    cases rest with
    | nil =>
      refine Chain.single a ?_
      show (if a = a then ENDV else fat a) = ENDV
      rw [if_pos rfl]
    | cons b rest2 =>
      have hFa : chainFat fat (a :: b :: rest2) a = b := by
        show (if a = a then b else chainFat fat (b :: rest2) a) = b
        rw [if_pos rfl]
      have hIH : Chain (chainFat fat (b :: rest2)) b (b :: rest2) := by
        have := ih (by simp) (List.pairwise_cons.mp hpw).2
          (fun c hc => hbd c (List.mem_cons_of_mem a hc))
        simpa using this
      have hagree : ∀ x ∈ b :: rest2,
          chainFat fat (b :: rest2) x = chainFat fat (a :: b :: rest2) x := by
        intro x hx
        have hxa : x ≠ a := by
          have := (List.pairwise_cons.mp hpw).1 x hx
          omega
        show _ = if x = a then b else chainFat fat (b :: rest2) x
        rw [if_neg hxa]
      have hchain : Chain (chainFat fat (a :: b :: rest2)) b (b :: rest2) :=
        chain_congr _ _ _ _ hagree hIH
      refine Chain.cons a (b :: rest2) ?_ ?_
      · rw [hFa]
        exact hchain
      · rw [hFa]
        have : b < BADV := hbd b (by simp)
        unfold ENDV BADV at *
        omega

theorem allocLoop_succ_eq (fat : Nat → Nat) (cc g : Nat) (m : Mgr) (b p cur count : Nat) :
    allocLoop fat cc (g + 1) m b p cur count =
      if mgrGet fat m cur = 0 then
        if p = 0 then
          if count = 1 then
            .ok (if b = 0 then cur else b, mgrCommit fat (mgrSet m cur ENDV))
          else if cur + 1 = cc then .error .NotEnoughSpace
          else allocLoop fat cc g m (if b = 0 then cur else b) cur (cur + 1) count
        else
          if (count + (U32 - 1)) % U32 = 1 then
            .ok (if b = 0 then cur else b, mgrCommit fat (mgrSet (mgrSet m p cur) cur ENDV))
          else if cur + 1 = cc then .error .NotEnoughSpace
          else allocLoop fat cc g (mgrSet m p cur) (if b = 0 then cur else b) cur (cur + 1)
            ((count + (U32 - 1)) % U32)
      else if cur + 1 = cc then .error .NotEnoughSpace
      else allocLoop fat cc g m b p (cur + 1) count := rfl

theorem allocLoop_go (fat : Nat → Nat) (cc n : Nat) (h0 : fat 0 ≠ 0) (hn1 : 1 ≤ n)
    (hnU : n < U32) :
    ∀ gas cur m, gas + cur = cc → cur < cc →
      (∀ x, mgrGet fat m x = linkFun fat (freesBelow fat cur) x) →
      (freesBelow fat cur).length < n →
      allocLoop fat cc gas m ((freesBelow fat cur).headD 0) (lastD (freesBelow fat cur) 0)
          cur (n - ((freesBelow fat cur).length - 1)) =
        if n ≤ (freesBelow fat cc).length then
          .ok ((freesBelow fat cc).headD 0, chainFat fat ((freesBelow fat cc).take n))
        else .error .NotEnoughSpace := by
  intro gas
  induction gas with
  | zero =>
    intro cur m hgas hcur _ _
    omega
  | succ g ih =>
    intro cur m hgas hcur hm hk
    have hcurne : cur ∉ freesBelow fat cur := fun hmem => by
      have := (freesBelow_mem fat cur cur hmem).1
      omega
    have hv : mgrGet fat m cur = fat cur := by
      rw [hm cur, linkFun_not_mem fat _ cur hcurne]
    have hmem0 : (0 : Nat) ∉ freesBelow fat cur := fun hmem =>
      h0 (freesBelow_mem fat cur 0 hmem).2
    rw [allocLoop_succ_eq, hv]
    by_cases hfree : fat cur = 0
    · rw [if_pos hfree]
      have hsucc : freesBelow fat (cur + 1) = freesBelow fat cur ++ [cur] := by
        rw [freesBelow_succ, if_pos hfree]
      by_cases hcse : freesBelow fat cur = []
      · -- first free cluster found: prev = 0, begin = 0, count = n
        rw [hcse]
        rw [show lastD ([] : List Nat) 0 = 0 from rfl, if_pos rfl]
        rw [show (([] : List Nat).headD 0) = 0 from rfl]
        rw [show (([] : List Nat).length) = 0 from rfl]
        rw [show n - (0 - 1) = n from by omega]
        rw [hcse] at hsucc
        simp only [List.nil_append] at hsucc
        by_cases hn : n = 1
        · rw [if_pos hn]
          obtain ⟨rest, hrest⟩ := freesBelow_extend fat (cur + 1) cc (by omega)
          rw [hsucc] at hrest
          have hlen : 1 ≤ (freesBelow fat cc).length := by
            rw [hrest]
            simp
          rw [hn, if_pos hlen]
          have hhead : (freesBelow fat cc).headD 0 = cur := by
            rw [hrest]
            rfl
          have htake : (freesBelow fat cc).take 1 = [cur] := by
            rw [hrest]
            rfl
          have hfun : mgrCommit fat (mgrSet m cur ENDV) = chainFat fat [cur] := by
            funext x
            show mgrGet fat (mgrSet m cur ENDV) x = chainFat fat [cur] x
            rw [mgrGet_set]
            by_cases hx : x = cur
            · subst hx
              rw [if_pos rfl]
              show _ = if x = x then ENDV else fat x
              rw [if_pos rfl]
            · rw [if_neg hx, hm x, hcse]
              show fat x = if x = cur then ENDV else fat x
              rw [if_neg hx]
          rw [if_pos rfl, hhead, htake, hfun]
        · rw [if_neg hn]
          by_cases hend : cur + 1 = cc
          · rw [if_pos hend]
            have hfin : freesBelow fat cc = [cur] := by rw [← hend, hsucc]
            rw [if_neg (by rw [hfin]; simp; omega)]
          · rw [if_neg hend]
            have hrec := ih (cur + 1) m (by omega) (by omega) ?_ ?_
            · rw [hsucc] at hrec
              rw [show (([cur] : List Nat).headD 0) = cur from rfl] at hrec
              rw [lastD_single] at hrec
              rw [show (([cur] : List Nat).length) = 1 from rfl] at hrec
              rw [show n - (1 - 1) = n from by omega] at hrec
              rw [if_pos rfl]
              exact hrec
            · intro x
              rw [hm x, hcse, hsucc]
              rfl
            · rw [hsucc]
              simp
              omega
      · -- at least one free cluster collected already
        have hb : (freesBelow fat cur).headD 0 ≠ 0 := fun hb0 =>
          hmem0 (hb0 ▸ headD_mem _ 0 hcse)
        have hp : lastD (freesBelow fat cur) 0 ≠ 0 := fun hp0 =>
          hmem0 (hp0 ▸ lastD_mem _ 0 hcse)
        rw [if_neg hp]
        have hklen : 1 ≤ (freesBelow fat cur).length :=
          List.length_pos.mpr hcse
        have hcnt : (n - ((freesBelow fat cur).length - 1) + (U32 - 1)) % U32 =
            n - (freesBelow fat cur).length := by
          have hU : 2 ≤ U32 := by unfold U32; omega
          have h2 : 2 ≤ n - ((freesBelow fat cur).length - 1) := by omega
          have heq : n - ((freesBelow fat cur).length - 1) + (U32 - 1) =
              (n - (freesBelow fat cur).length) + U32 := by omega
          rw [heq, Nat.add_mod_right]
          exact Nat.mod_eq_of_lt (by omega)
        rw [hcnt]
        have hpw := freesBelow_sorted fat cur
        have hlt : ∀ c ∈ freesBelow fat cur, c < cur :=
          fun c hc => (freesBelow_mem fat cur c hc).1
        by_cases hnk : n - (freesBelow fat cur).length = 1
        · rw [if_pos hnk, if_neg hb]
          have hlen1 : (freesBelow fat (cur + 1)).length = n := by
            rw [hsucc]
            simp
            omega
          obtain ⟨rest, hrest⟩ := freesBelow_extend fat (cur + 1) cc (by omega)
          have hccfrees : freesBelow fat cc = (freesBelow fat cur ++ [cur]) ++ rest := by
            rw [hrest, hsucc]
          have hlenge : n ≤ (freesBelow fat cc).length := by
            rw [hccfrees]
            simp
            omega
          rw [if_pos hlenge]
          have hhead : (freesBelow fat cc).headD 0 = (freesBelow fat cur).headD 0 := by
            rw [hccfrees, headD_append_of_ne_nil _ _ _ (by simp [hcse]),
              headD_append_of_ne_nil _ _ _ hcse]
          have htake : (freesBelow fat cc).take n = freesBelow fat cur ++ [cur] := by
            rw [hccfrees]
            refine List.take_left' ?_
            rw [hsucc] at hlen1
            exact hlen1
          have hfun : mgrCommit fat
                (mgrSet (mgrSet m (lastD (freesBelow fat cur) 0) cur) cur ENDV) =
              chainFat fat (freesBelow fat cur ++ [cur]) := by
            funext x
            show mgrGet fat (mgrSet (mgrSet m (lastD (freesBelow fat cur) 0) cur) cur ENDV) x = _
            rw [mgrGet_set, mgrGet_set]
            rw [chainFat_snoc fat _ cur x hcse hpw hlt]
            by_cases hx : x = cur
            · rw [if_pos hx, if_pos hx]
            · rw [if_neg hx, if_neg hx]
              by_cases hxp : x = lastD (freesBelow fat cur) 0
              · rw [if_pos hxp, if_pos hxp]
              · rw [if_neg hxp, if_neg hxp, hm x]
          rw [hhead, htake, hfun]
        · rw [if_neg hnk]
          by_cases hend : cur + 1 = cc
          · rw [if_pos hend]
            have hccfrees : freesBelow fat cc = freesBelow fat cur ++ [cur] := by
              rw [← hend, hsucc]
            rw [if_neg (by rw [hccfrees]; simp; omega)]
          · rw [if_neg hend]
            have hrec := ih (cur + 1) (mgrSet m (lastD (freesBelow fat cur) 0) cur)
              (by omega) (by omega) ?_ ?_
            · rw [hsucc] at hrec
              rw [headD_append_of_ne_nil _ _ _ hcse] at hrec
              rw [lastD_append_single] at hrec
              rw [List.length_append] at hrec
              rw [show ((List.length [cur]) : Nat) = 1 from rfl] at hrec
              rw [show n - ((freesBelow fat cur).length + 1 - 1) =
                n - (freesBelow fat cur).length from by omega] at hrec
              rw [if_neg hb]
              exact hrec
            · intro x
              rw [mgrGet_set, hsucc]
              rw [linkFun_snoc fat _ cur x hcse hpw hlt]
              by_cases hxp : x = lastD (freesBelow fat cur) 0
              · rw [if_pos hxp, if_pos hxp]
              · rw [if_neg hxp, if_neg hxp, hm x]
            · rw [hsucc]
              simp
              omega
    · rw [if_neg hfree]
      have hsucc : freesBelow fat (cur + 1) = freesBelow fat cur := by
        rw [freesBelow_succ, if_neg hfree]
        simp
      by_cases hend : cur + 1 = cc
      · rw [if_pos hend]
        have hfin : freesBelow fat cc = freesBelow fat cur := by rw [← hend, hsucc]
        rw [if_neg (by rw [hfin]; omega)]
      · rw [if_neg hend]
        have hrec := ih (cur + 1) m (by omega) (by omega) ?_ ?_
        · rw [hsucc] at hrec
          exact hrec
        · intro x
          rw [hm x, hsucc]
        · rw [hsucc]
          exact hk

/-- The allocator's behaviour (shared helper): the success side additionally
records that the allocated clusters are strictly increasing (the scan visits
cells in order), hence pairwise distinct. -/
theorem allocate_clusters_ok (s : VolState) (n : Nat) (h0 : s.fat 0 ≠ 0) (hn1 : 1 ≤ n)
    (hnU : n < U32) (hccB : s.clusterCount ≤ BADV) :
    ((freesBelow s.fat s.clusterCount).length < n →
        allocate_clusters s n = .error .NotEnoughSpace) ∧
      (n ≤ (freesBelow s.fat s.clusterCount).length →
        ∃ head fat2 cs, allocate_clusters s n = .ok (head, fat2) ∧
          cs.length = n ∧ head = cs.headD 0 ∧ Chain fat2 head cs ∧
          cs.Pairwise (· < ·) ∧
          (∀ c ∈ cs, s.fat c = 0 ∧ c < s.clusterCount) ∧
          (∀ c, c ∉ cs → fat2 c = s.fat c)) := by
  by_cases hcc : s.clusterCount = 0
  · constructor
    · intro _
      unfold allocate_clusters
      rw [hcc]
      rfl
    · intro hge
      exfalso
      have hnil : freesBelow s.fat 0 = [] := rfl
      rw [hcc, hnil] at hge
      simp at hge
      omega
  · have hmain := allocLoop_go s.fat s.clusterCount n h0 hn1 hnU s.clusterCount 0 []
      (by omega) (by omega) (fun x => rfl) (by simp [freesBelow]; omega)
    have hentry : allocate_clusters s n =
        if n ≤ (freesBelow s.fat s.clusterCount).length then
          .ok ((freesBelow s.fat s.clusterCount).headD 0,
            chainFat s.fat ((freesBelow s.fat s.clusterCount).take n))
        else .error .NotEnoughSpace := by
      unfold allocate_clusters
      have h1 : (freesBelow s.fat 0).headD 0 = 0 := rfl
      have h2 : lastD (freesBelow s.fat 0) 0 = 0 := rfl
      have h3 : n - ((freesBelow s.fat 0).length - 1) = n := by
        show n - ((List.length ([] : List Nat)) - 1) = n
        simp
      rw [← h1, ← h2, ← h3]
      exact hmain
    constructor
    · intro hlt
      rw [hentry, if_neg (by omega)]
    · intro hge
      have hte : (freesBelow s.fat s.clusterCount).headD 0 =
          ((freesBelow s.fat s.clusterCount).take n).headD 0 := by
        cases hfr : freesBelow s.fat s.clusterCount with
        | nil =>
          rw [hfr] at hge
          simp at hge
          omega
        | cons a t =>
          cases n with
          | zero => omega
          | succ n2 => rfl
      have htne : (freesBelow s.fat s.clusterCount).take n ≠ [] := by
        cases hfr : freesBelow s.fat s.clusterCount with
        | nil =>
          rw [hfr] at hge
          simp at hge
          omega
        | cons a t =>
          cases n with
          | zero => omega
          | succ n2 => simp
      refine ⟨(freesBelow s.fat s.clusterCount).headD 0,
        chainFat s.fat ((freesBelow s.fat s.clusterCount).take n),
        (freesBelow s.fat s.clusterCount).take n, ?_, ?_, hte, ?_, ?_, ?_, ?_⟩
      · rw [hentry, if_pos hge]
      · rw [List.length_take]
        omega
      · rw [hte]
        refine chainFat_chain s.fat _ htne ?_ ?_
        · exact List.Pairwise.sublist (List.take_sublist _ _)
            (freesBelow_sorted s.fat s.clusterCount)
        · intro c hcmem
          have := freesBelow_mem s.fat s.clusterCount c (List.mem_of_mem_take hcmem)
          omega
      · exact List.Pairwise.sublist (List.take_sublist _ _)
          (freesBelow_sorted s.fat s.clusterCount)
      · intro c hcmem
        have := freesBelow_mem s.fat s.clusterCount c (List.mem_of_mem_take hcmem)
        exact ⟨this.2, this.1⟩
      · intro c hcnot
        exact chainFat_not_mem s.fat _ c hcnot

/-- **C5.**  For `n ≥ 1`: if fewer than `n` FAT cells in clusters
`0 .. cluster_count` are free, `allocate_clusters n` fails with `NotEnoughSpace`
— and since the error path never flushes, all reservations die with the
transient cache and no on-disk FAT cell changes (the error carries no state) —
while if at least `n` cells are free it succeeds and returns the head of an
`n`-cluster chain ending in END-OF-CHAIN, leaving every other FAT cell
untouched.  (`fat 0 ≠ 0` holds on every formatted volume — cell 0 is seeded
BAD — and `cluster_count ≤ BADV`, `n < 2^32` are the `u32` geometry bounds.) -/
theorem allocate_clusters_spec (s : VolState) (n : Nat) (h0 : s.fat 0 ≠ 0) (hn1 : 1 ≤ n)
    (hnU : n < U32) (hccB : s.clusterCount ≤ BADV) :
    ((freesBelow s.fat s.clusterCount).length < n →
        allocate_clusters s n = .error .NotEnoughSpace) ∧
      (n ≤ (freesBelow s.fat s.clusterCount).length →
        ∃ head fat2 cs, allocate_clusters s n = .ok (head, fat2) ∧
          cs.length = n ∧ head = cs.headD 0 ∧ Chain fat2 head cs ∧
          (∀ c ∈ cs, s.fat c = 0 ∧ c < s.clusterCount) ∧
          (∀ c, c ∉ cs → fat2 c = s.fat c)) := by
  obtain ⟨hfail, hsucc⟩ := allocate_clusters_ok s n h0 hn1 hnU hccB
  refine ⟨hfail, fun hge => ?_⟩
  obtain ⟨head, fat2, cs, h1, h2, h3, h4, _, h6, h7⟩ := hsucc hge
  exact ⟨head, fat2, cs, h1, h2, h3, h4, h6, h7⟩

/-- Concrete instance of `allocate_clusters_spec`: an 8-cluster volume with
clusters 2..7 free, requesting 7 clusters (failure side) — the success side's
bound `7 ≤ 6` is vacuous there, and both conjuncts are produced by the theorem. -/
theorem allocate_clusters_spec_witness :
    ((freesBelow (fun c => if c = 0 then BADV else if c = 1 then ENDV else 0) 8).length < 7 →
        allocate_clusters
            ⟨8, fun c => if c = 0 then BADV else if c = 1 then ENDV else 0, fun _ => []⟩ 7 =
          .error .NotEnoughSpace) ∧
      (7 ≤ (freesBelow (fun c => if c = 0 then BADV else if c = 1 then ENDV else 0) 8).length →
        ∃ head fat2 cs,
          allocate_clusters
              ⟨8, fun c => if c = 0 then BADV else if c = 1 then ENDV else 0, fun _ => []⟩ 7 =
            .ok (head, fat2) ∧
          cs.length = 7 ∧ head = cs.headD 0 ∧ Chain fat2 head cs ∧
          (∀ c ∈ cs, (if c = 0 then BADV else if c = 1 then ENDV else 0) = 0 ∧ c < 8) ∧
          (∀ c, c ∉ cs → fat2 c = (if c = 0 then BADV else if c = 1 then ENDV else 0))) :=
  allocate_clusters_spec
    ⟨8, fun c => if c = 0 then BADV else if c = 1 then ENDV else 0, fun _ => []⟩ 7
    (by decide) (by decide) (by decide) (by decide)

/-! ## Chain-walk lemmas for `remove` (C7, C10) -/

theorem chain_self_mem (fat : Nat → Nat) (c : Nat) (l : List Nat) (h : Chain fat c l) :
    c ∈ l := by
  cases h with
  | single => exact List.mem_singleton_self c
  | cons => exact List.mem_cons_self c _

theorem find?_none_of_all (p : Entry → Bool) (l : List Entry) (h : ∀ e ∈ l, p e = false) :
    l.find? p = none := by
  induction l with
  | nil => rfl
  | cons a t ih =>
    rw [List.find?_cons, h a (List.mem_cons_self _ _)]
    exact ih (fun e he => h e (List.mem_cons_of_mem a he))

theorem removeScan_not_found (s : VolState) (fn : List Nat) (flags : Nat) (pcs : List Nat)
    (c : Nat) (hch : Chain s.fat c pcs) :
    ∀ gas, pcs.length < gas → (∀ x ∈ pcs, x < BADV) →
      (∀ x ∈ pcs, (entriesOf s x).find? (fun e => e.name == fn && e.flags == flags) = none) →
      removeScan s fn flags gas c = some (.error .FileNotFound) := by
  induction hch with
  | single c hc =>
    intro gas hgas hb hn
    obtain ⟨g2, rfl⟩ : ∃ g2, gas = g2 + 2 := ⟨gas - 2, by simp at hgas; omega⟩
    have hcb : c < BADV := hb c (by simp)
    have hcne : c ≠ ENDV := by unfold ENDV BADV at *; omega
    have hfb : ENDV ≠ BADV := by decide
    show removeScan s fn flags (g2 + 1 + 1) c = _
    simp only [removeScan, next_cluster, hn c (List.mem_singleton_self c), hc,
      if_neg hcne]
    simp [hfb]
  | cons c cs hch2 hne ih =>
    intro gas hgas hb hn
    obtain ⟨g2, rfl⟩ : ∃ g2, gas = g2 + 1 := ⟨gas - 1, by omega⟩
    have hcb : c < BADV := hb c (by simp)
    have hmem : s.fat c ∈ cs := chain_self_mem _ _ _ hch2
    have hfb : s.fat c < BADV := hb _ (List.mem_cons_of_mem c hmem)
    have hcne : c ≠ ENDV := by unfold ENDV BADV at *; omega
    have hfne : s.fat c ≠ BADV := by omega
    show removeScan s fn flags (g2 + 1) c = _
    simp only [removeScan, next_cluster, hn c (List.mem_cons_self c cs), if_neg hcne,
      if_neg hfne]
    exact ih g2 (by simp at hgas; omega) (fun x hx => hb x (List.mem_cons_of_mem c hx))
      (fun x hx => hn x (List.mem_cons_of_mem c hx))

/-- **C7.**  `remove` matches only entries whose flags exactly equal the expected
mask.  If every entry named like the target in the (well-formed) parent chain
has its DIRECTORY or SYSTEM bit set, `remove_file` (expecting exactly OCCUPIED)
returns `FileNotFound` — it removes nothing and, the scan being read-only until
a match is found, leaves the volume unchanged (the error carries no new state).
Likewise `remove_dir` (expecting exactly OCCUPIED|DIRECTORY) returns
`FileNotFound` whenever every entry so named carries the SYSTEM bit — in
particular it can never remove the SYSTEM-flagged `.` and `..` entries. -/
theorem remove_exact_flags (s : VolState) (comps : List (List Nat)) (D : Entry)
    (pcs τ : List Nat) (gas : Nat)
    (hdir : findFileT s filter_mkdir (splitComps comps).1 1 gas = some (.ok D, τ))
    (hchain : Chain s.fat D.cluster pcs)
    (hbound : ∀ c ∈ pcs, c < BADV)
    (hgas : pcs.length + 1 < gas) :
    ((∀ c ∈ pcs, ∀ e ∈ entriesOf s c, e.name = (splitComps comps).2 →
        e.flags &&& DIRECTORY = DIRECTORY ∨ e.flags &&& SYSTEM = SYSTEM) →
      remove_file s comps gas = some (.error .FileNotFound)) ∧
      ((∀ c ∈ pcs, ∀ e ∈ entriesOf s c, e.name = (splitComps comps).2 →
          e.flags &&& SYSTEM = SYSTEM) →
        remove_dir s comps gas = some (.error .FileNotFound)) := by
  constructor
  · intro hflags
    unfold remove_file remove
    rw [hdir]
    refine removeScan_not_found s _ OCCUPIED pcs D.cluster hchain gas (by omega) hbound ?_
    intro x hx
    refine find?_none_of_all _ _ ?_
    intro e he
    by_cases hnm : e.name = (splitComps comps).2
    · have hor := hflags x hx e he hnm
      have hne1 : e.flags ≠ OCCUPIED := by
        rcases hor with h2 | h4
        · intro heq
          rw [heq] at h2
          exact absurd h2 (by decide)
        · intro heq
          rw [heq] at h4
          exact absurd h4 (by decide)
      simp [hnm, hne1]
    · simp [hnm]
  · intro hflags
    unfold remove_dir remove
    rw [hdir]
    refine removeScan_not_found s _ (OCCUPIED ||| DIRECTORY) pcs D.cluster hchain gas (by omega)
      hbound ?_
    intro x hx
    refine find?_none_of_all _ _ ?_
    intro e he
    by_cases hnm : e.name = (splitComps comps).2
    · have h4 := hflags x hx e he hnm
      have hne1 : e.flags ≠ OCCUPIED ||| DIRECTORY := by
        intro heq
        rw [heq] at h4
        exact absurd h4 (by decide)
      simp [hnm, hne1]
    · simp [hnm]

set_option maxRecDepth 4000 in
/-- Concrete instance of `remove_exact_flags`: on the fixture volume, both
`rm .` and `rmdir .` report `FileNotFound` — the `.` entry carries flags
OCCUPIED|DIRECTORY|SYSTEM, which equals neither expected mask exactly. -/
theorem remove_exact_flags_witness :
    ((∀ c ∈ [1], ∀ e ∈ entriesOf (fixVol ENDV ⟨[100], 0, 2, 3⟩) c,
        e.name = (splitComps [[46]]).2 →
        e.flags &&& DIRECTORY = DIRECTORY ∨ e.flags &&& SYSTEM = SYSTEM) →
      remove_file (fixVol ENDV ⟨[100], 0, 2, 3⟩) [[46]] 5 =
        some (.error .FileNotFound)) ∧
      ((∀ c ∈ [1], ∀ e ∈ entriesOf (fixVol ENDV ⟨[100], 0, 2, 3⟩) c,
          e.name = (splitComps [[46]]).2 → e.flags &&& SYSTEM = SYSTEM) →
        remove_dir (fixVol ENDV ⟨[100], 0, 2, 3⟩) [[46]] 5 =
          some (.error .FileNotFound)) :=
  remove_exact_flags (fixVol ENDV ⟨[100], 0, 2, 3⟩) [[46]]
    (dotEntry 1) [1] [1] 5 (by rfl) (Chain.single 1 (by decide)) (by decide) (by decide)

/-! ## C10: removal when deallocation hits a BAD cell -/

theorem deallocLoop_bad (s : VolState) (ws : List Nat) (c : Nat) (hbw : BadWalk s.fat c ws) :
    ∀ gas m, ws.length < gas → deallocLoop s gas m c = some none := by
  induction hbw with
  | hit c hcne hcbad =>
    intro gas m hgas
    obtain ⟨g2, rfl⟩ : ∃ g2, gas = g2 + 1 := ⟨gas - 1, by omega⟩
    simp only [deallocLoop, next_cluster]
    rw [if_neg hcne, if_pos hcbad]
  | step c ws2 hcne hcnb hbw2 ih =>
    intro gas m hgas
    obtain ⟨g2, rfl⟩ : ∃ g2, gas = g2 + 1 := ⟨gas - 1, by omega⟩
    simp only [deallocLoop, next_cluster]
    rw [if_neg hcne, if_neg hcnb]
    exact ih g2 _ (by simp at hgas; omega)

theorem dealloc_clusters_bad (s : VolState) (ws : List Nat) (c : Nat)
    (hbw : BadWalk s.fat c ws) (gas : Nat) (hgas : ws.length < gas) :
    dealloc_clusters s c gas = some s := by
  unfold dealloc_clusters
  rw [deallocLoop_bad s ws c hbw gas [] hgas]

theorem removeScan_file_hit (s : VolState) (fn : List Nat) (front : List Nat) (c p : Nat)
    (hw : Walk s.fat c front p) :
    p ≠ ENDV →
    (∀ x ∈ front, (entriesOf s x).find? (fun e => e.name == fn && e.flags == OCCUPIED) = none) →
    ∀ e2, (entriesOf s p).find? (fun e => e.name == fn && e.flags == OCCUPIED) = some e2 →
    ∀ ws, BadWalk s.fat e2.cluster ws →
    ∀ gas, front.length + ws.length + 2 ≤ gas →
      removeScan s fn OCCUPIED gas c =
        some (.ok (writeEntries s p (updFirst (fun x => x.name == fn && x.flags == OCCUPIED)
          (fun x => Entry.setFlags x 0) (entriesOf s p)))) := by
  induction hw with
  | refl c =>
    intro hpne hfr e2 hfind ws hbw gas hgas
    obtain ⟨g2, rfl⟩ : ∃ g2, gas = g2 + 1 := ⟨gas - 1, by omega⟩
    show removeScan s fn OCCUPIED (g2 + 1) c = _
    simp only [removeScan, hfind, if_neg hpne,
      dealloc_clusters_bad s ws e2.cluster hbw g2 (by simp at hgas; omega)]
    simp [(by decide : (OCCUPIED &&& DIRECTORY == DIRECTORY) = false)]
  | step c l p2 hcne hcnb hw2 ih =>
    intro hpne hfr e2 hfind ws hbw gas hgas
    obtain ⟨g2, rfl⟩ : ∃ g2, gas = g2 + 1 := ⟨gas - 1, by omega⟩
    show removeScan s fn OCCUPIED (g2 + 1) c = _
    simp only [removeScan, next_cluster, hfr c (List.mem_cons_self c l), if_neg hcne,
      if_neg hcnb]
    exact ih hpne (fun x hx => hfr x (List.mem_cons_of_mem c hx)) e2 hfind ws hbw g2
      (by simp at hgas; omega)

set_option maxRecDepth 4000 in
/-- **C10, counterexample (remove_dir part).**  The claim says `remove_dir`, like
`remove_file`, clears the entry and returns success when deallocation meets a
BAD cell.  In fact `is_empty` walks the same chain first and aborts with
`CannotRead` before anything is cleared: on an 8-cluster volume whose root
holds the empty directory `d` at cluster 2 with `fat[2] = BAD`, `remove_dir d`
returns `CannotRead`, not success. -/
theorem remove_dir_bad_counterexample :
    remove_dir (fixVol BADV ⟨[100], 0, 2, 3⟩) [[100]] 6 = some (.error .CannotRead) := by
  rfl

/-- **C10, amended.**  For `remove_file`: when freeing the removed entry's chain
meets a BAD FAT cell, the directory entry is nevertheless cleared (its flags
are set to 0 by `updFirst … setFlags 0`) and the call returns success, while
the buffered zeroing edits are discarded — the resulting FAT equals the
original, so no cell of the partially walked chain is freed on disk; only the
parent cluster's payload changes.  For `remove_dir` this does **not** hold: its
`is_empty` precheck walks the same chain and fails with `CannotRead` first (see
the counterexample). -/
theorem remove_file_bad_chain (s : VolState) (comps : List (List Nat)) (D e2 : Entry)
    (front ws τ : List Nat) (p : Nat) (gas : Nat)
    (hdir : findFileT s filter_mkdir (splitComps comps).1 1 gas = some (.ok D, τ))
    (hwalk : Walk s.fat D.cluster front p)
    (hpne : p ≠ ENDV)
    (hfr : ∀ x ∈ front, (entriesOf s x).find? (fun e =>
      e.name == (splitComps comps).2 && e.flags == OCCUPIED) = none)
    (hfind : (entriesOf s p).find? (fun e =>
      e.name == (splitComps comps).2 && e.flags == OCCUPIED) = some e2)
    (hbad : BadWalk s.fat e2.cluster ws)
    (hgas : front.length + ws.length + 2 ≤ gas) :
    remove_file s comps gas = some (.ok (writeEntries s p
        (updFirst (fun x => x.name == (splitComps comps).2 && x.flags == OCCUPIED)
          (fun x => Entry.setFlags x 0) (entriesOf s p)))) ∧
      (writeEntries s p (updFirst (fun x => x.name == (splitComps comps).2 &&
          x.flags == OCCUPIED) (fun x => Entry.setFlags x 0) (entriesOf s p))).fat = s.fat ∧
      ∀ c, c ≠ p → (writeEntries s p (updFirst (fun x => x.name == (splitComps comps).2 &&
          x.flags == OCCUPIED) (fun x => Entry.setFlags x 0) (entriesOf s p))).data c =
        s.data c := by
  refine ⟨?_, ?_, ?_⟩
  · unfold remove_file remove
    rw [hdir]
    exact removeScan_file_hit s _ front D.cluster p hwalk hpne hfr e2 hfind ws hbad gas hgas
  · rfl
  · intro c hcp
    show (if c = p then _ else s.data c) = s.data c
    rw [if_neg hcp]

set_option maxRecDepth 4000 in
/-- Concrete instance of `remove_file_bad_chain`: the root holds the file `f`
at cluster 2 whose FAT cell is BAD; `rm f` succeeds, clears the entry, and the
FAT is untouched. -/
theorem remove_file_bad_chain_witness :
    remove_file (fixVol BADV ⟨[102], 3, 2, 1⟩) [[102]] 6 =
      some (.ok (writeEntries (fixVol BADV ⟨[102], 3, 2, 1⟩) 1
        (updFirst (fun x => x.name == (splitComps [[102]]).2 && x.flags == OCCUPIED)
          (fun x => Entry.setFlags x 0) (entriesOf (fixVol BADV ⟨[102], 3, 2, 1⟩) 1)))) ∧
      (writeEntries (fixVol BADV ⟨[102], 3, 2, 1⟩) 1
        (updFirst (fun x => x.name == (splitComps [[102]]).2 && x.flags == OCCUPIED)
          (fun x => Entry.setFlags x 0) (entriesOf (fixVol BADV ⟨[102], 3, 2, 1⟩) 1))).fat =
        (fixVol BADV ⟨[102], 3, 2, 1⟩).fat ∧
      ∀ c, c ≠ 1 → (writeEntries (fixVol BADV ⟨[102], 3, 2, 1⟩) 1
        (updFirst (fun x => x.name == (splitComps [[102]]).2 && x.flags == OCCUPIED)
          (fun x => Entry.setFlags x 0) (entriesOf (fixVol BADV ⟨[102], 3, 2, 1⟩) 1))).data c =
        (fixVol BADV ⟨[102], 3, 2, 1⟩).data c :=
  remove_file_bad_chain (fixVol BADV ⟨[102], 3, 2, 1⟩) [[102]]
    (dotEntry 1) ⟨[102], 3, 2, 1⟩ [] [2] [1] 1 6
    (by rfl) (Walk.refl 1) (by decide) (by decide) (by rfl)
    (BadWalk.hit 2 (by decide) (by decide)) (by decide)

/-! ## C9: `bug` followed by `check` -/

theorem readCluster_length (s : VolState) (c : Nat) : (readCluster s c).length = 4096 := by
  simp [readCluster]
  omega

/-- Every cluster decodes to exactly 128 directory entries (4096 bytes in
32-byte records). -/
theorem entriesOf_length (s : VolState) (c : Nat) : (entriesOf s c).length = 128 := by
  simp only [entriesOf, decodeEntries, List.length_map, chunks32]
  exact chunksN_length 128 (readCluster s c) (by rw [readCluster_length])

theorem checkRun_loop_end (s : VolState) (isDir : Bool) (tabs : Nat) (visited : List Nat) :
    ∀ G, 1 ≤ G → checkRun s G (.loop isDir tabs visited ENDV) = some (.ok (), []) := by
  intro G hG
  obtain ⟨g2, rfl⟩ : ∃ g2, G = g2 + 1 := ⟨G - 1, by omega⟩
  simp [checkRun]

theorem checkRun_selfLoop (s : VolState) (tabs c : Nat) (hc : s.fat c = c)
    (hcE : c ≠ ENDV) (hcB : c ≠ BADV) :
    ∀ G, 2 ≤ G → checkRun s G (.loop false tabs [] c) =
      some (.ok (), [CheckEvent.cycle tabs]) := by
  intro G hG
  obtain ⟨g2, rfl⟩ : ∃ g2, G = g2 + 2 := ⟨G - 2, by omega⟩
  show checkRun s (g2 + 1 + 1) (.loop false tabs [] c) = _
  simp [checkRun, next_cluster, hc, hcE, hcB]

theorem checkRun_fileEntry (s : VolState) (f : Entry) (tabs : Nat)
    (hreg : (f.flags &&& DIRECTORY == DIRECTORY) = false)
    (hc : s.fat f.cluster = f.cluster) (hcE : f.cluster ≠ ENDV) (hcB : f.cluster ≠ BADV) :
    ∀ G, 3 ≤ G → checkRun s G (.entry f tabs) =
      some (.ok (), [CheckEvent.entryName f.name tabs, CheckEvent.cycle tabs]) := by
  intro G hG
  obtain ⟨g2, rfl⟩ : ∃ g2, G = g2 + 3 := ⟨G - 3, by omega⟩
  show checkRun s (g2 + 1 + 1 + 1) (.entry f tabs) = _
  simp [checkRun, next_cluster, hreg, hc, hcE, hcB]

theorem checkRun_children_skip (s : VolState) (tabs : Nat) :
    ∀ es : List Entry, es.filter (fun e => e.flags &&& OCCUPIED == OCCUPIED &&
      e.name != [46] && e.name != [46, 46]) = [] →
    ∀ G, es.length + 1 ≤ G → checkRun s G (.children tabs es) = some (.ok (), []) := by
  intro es
  induction es with
  | nil =>
    intro _ G hG
    obtain ⟨g2, rfl⟩ : ∃ g2, G = g2 + 1 := ⟨G - 1, by omega⟩
    rfl
  | cons e rest ih =>
    intro hfil G hG
    rw [List.filter_cons] at hfil
    obtain ⟨g2, rfl⟩ : ∃ g2, G = g2 + 1 := ⟨G - 1, by omega⟩
    show checkRun s (g2 + 1) (.children tabs (e :: rest)) = _
    cases hp : (e.flags &&& OCCUPIED == OCCUPIED && e.name != [46] && e.name != [46, 46]) with
    | true =>
      rw [if_pos hp] at hfil
      exact absurd hfil (by simp)
    | false =>
      rw [if_neg (by simp [hp])] at hfil
      simp only [checkRun, hp]
      exact ih hfil g2 (by simp at hG; omega)

theorem checkRun_children_hit (s : VolState) (f : Entry) (tabs : Nat)
    (hreg : (f.flags &&& DIRECTORY == DIRECTORY) = false)
    (hc : s.fat f.cluster = f.cluster) (hcE : f.cluster ≠ ENDV) (hcB : f.cluster ≠ BADV) :
    ∀ es : List Entry, es.filter (fun e => e.flags &&& OCCUPIED == OCCUPIED &&
      e.name != [46] && e.name != [46, 46]) = [f] →
    ∀ G, es.length + 3 ≤ G → checkRun s G (.children tabs es) =
      some (.ok (), [CheckEvent.entryName f.name (tabs + 1), CheckEvent.cycle (tabs + 1)]) := by
  intro es
  induction es with
  | nil =>
    intro hfil
    exact absurd hfil (by simp)
  | cons e rest ih =>
    intro hfil G hG
    rw [List.filter_cons] at hfil
    obtain ⟨g2, rfl⟩ : ∃ g2, G = g2 + 1 := ⟨G - 1, by omega⟩
    show checkRun s (g2 + 1) (.children tabs (e :: rest)) = _
    cases hp : (e.flags &&& OCCUPIED == OCCUPIED && e.name != [46] && e.name != [46, 46]) with
    | true =>
      rw [if_pos hp] at hfil
      rw [List.cons_eq_cons] at hfil
      obtain ⟨rfl, hrest⟩ := hfil
      simp [checkRun, hp,
        checkRun_fileEntry s e (tabs + 1) hreg hc hcE hcB g2 (by simp at hG; omega),
        checkRun_children_skip s tabs rest hrest g2 (by simp at hG; omega)]
    | false =>
      rw [if_neg (by simp [hp])] at hfil
      simp only [checkRun, hp]
      exact ih hfil g2 (by simp at hG; omega)

theorem checkRun_entry_eq (s : VolState) (e : Entry) (tabs gas : Nat) :
    checkRun s (gas + 1) (.entry e tabs) =
      match checkRun s gas (.loop (e.flags &&& DIRECTORY == DIRECTORY) tabs [] e.cluster) with
      | none => none
      | some (r, evs) =>
        some (r, (CheckEvent.entryName e.name tabs ::
          (if e.flags &&& DIRECTORY == DIRECTORY && e.size != 0 then
            [CheckEvent.dirSizeNonzero tabs] else [])) ++ evs) := rfl

theorem checkRun_rootLoop (s : VolState) (f : Entry)
    (hreg : (f.flags &&& DIRECTORY == DIRECTORY) = false)
    (hc : s.fat f.cluster = f.cluster) (hcE : f.cluster ≠ ENDV) (hcB : f.cluster ≠ BADV)
    (hroot : s.fat 1 = ENDV)
    (hchild : (entriesOf s 1).filter (fun e => e.flags &&& OCCUPIED == OCCUPIED &&
      e.name != [46] && e.name != [46, 46]) = [f]) :
    ∀ G, (entriesOf s 1).length + 4 ≤ G → checkRun s G (.loop true 0 [] 1) =
      some (.ok (), [CheckEvent.entryName f.name 1, CheckEvent.cycle 1]) := by
  intro G hG
  obtain ⟨g2, rfl⟩ : ∃ g2, G = g2 + 1 := ⟨G - 1, by omega⟩
  show checkRun s (g2 + 1) (.loop true 0 [] 1) = _
  simp [checkRun, next_cluster, hroot,
    checkRun_children_hit s f 0 hreg hc hcE hcB (entriesOf s 1) hchild g2 (by omega),
    checkRun_loop_end s true 0 [1] g2 (by omega),
    (by decide : ¬(1 : Nat) = ENDV), (by decide : ¬ENDV = BADV)]

/-- **C9.**  On a volume whose root directory (cluster 1, single-cluster chain)
contains exactly one checkable child, a single-cluster regular file `f`,
`bug(path)` rewrites `f`'s END-OF-CHAIN cell to point back at `f`'s first
cluster, and `check` then terminates — for every gas above the fixed bound its
result is the same — reporting the root's name, the file's name and the cycle,
and returning without error. -/
theorem bug_check_cycle (s : VolState) (comps : List (List Nat)) (f : Entry) (gas g : Nat)
    (hfind : find_file s comps filter_find_file gas = some (.ok f))
    (hgas : 1 ≤ gas)
    (hsingle : s.fat f.cluster = ENDV)
    (hreg : (f.flags &&& DIRECTORY == DIRECTORY) = false)
    (hne1 : f.cluster ≠ 1) (hcE : f.cluster ≠ ENDV) (hcB : f.cluster ≠ BADV)
    (hroot : s.fat 1 = ENDV)
    (hchild : (entriesOf s 1).filter (fun e => e.flags &&& OCCUPIED == OCCUPIED &&
      e.name != [46] && e.name != [46, 46]) = [f]) :
    bug s comps gas = some (.ok (set_cluster_value s f.cluster f.cluster)) ∧
      check (set_cluster_value s f.cluster f.cluster) (g + 133) =
        some (.ok (), [CheckEvent.entryName [47] 0, CheckEvent.entryName f.name 1,
          CheckEvent.cycle 1]) := by
  constructor
  · obtain ⟨g2, rfl⟩ : ∃ g2, gas = g2 + 1 := ⟨gas - 1, by omega⟩
    show bug s comps (g2 + 1) = _
    simp [bug, hfind, bugWalk, next_cluster, hsingle]
  · have hc : (set_cluster_value s f.cluster f.cluster).fat f.cluster = f.cluster := by
      simp [set_cluster_value]
    have hroot' : (set_cluster_value s f.cluster f.cluster).fat 1 = ENDV := by
      simp [set_cluster_value, Ne.symm hne1, hroot]
    have hchild' : (entriesOf (set_cluster_value s f.cluster f.cluster) 1).filter
        (fun e => e.flags &&& OCCUPIED == OCCUPIED && e.name != [46] &&
          e.name != [46, 46]) = [f] := hchild
    rw [show g + 133 = g + 132 + 1 from by omega]
    show checkRun (set_cluster_value s f.cluster f.cluster) (g + 132 + 1)
      (.entry ⟨[47], 0, 1, DIRECTORY⟩ 0) = _
    rw [checkRun_entry_eq,
      (by decide : ((⟨[47], 0, 1, DIRECTORY⟩ : Entry).flags &&& DIRECTORY == DIRECTORY) = true)]
    simp only [show (⟨[47], 0, 1, DIRECTORY⟩ : Entry).cluster = 1 from rfl]
    rw [checkRun_rootLoop (set_cluster_value s f.cluster f.cluster) f hreg hc hcE hcB hroot'
      hchild' (g + 132) (by rw [entriesOf_length]; omega)]
    simp

set_option maxRecDepth 4000 in
/-- Concrete instance of `bug_check_cycle`: the fixture volume's single-cluster
file `f` is bugged into a self-loop at cluster 2; `check` at any gas ≥ 133
prints `/`, `f`, and the cycle report, and returns `Ok`. -/
theorem bug_check_cycle_witness :
    bug (fixVol ENDV ⟨[102], 3, 2, 1⟩) [[102]] 5 =
      some (.ok (set_cluster_value (fixVol ENDV ⟨[102], 3, 2, 1⟩) 2 2)) ∧
      check (set_cluster_value (fixVol ENDV ⟨[102], 3, 2, 1⟩) 2 2) 133 =
        some (.ok (), [CheckEvent.entryName [47] 0, CheckEvent.entryName [102] 1,
          CheckEvent.cycle 1]) :=
  bug_check_cycle (fixVol ENDV ⟨[102], 3, 2, 1⟩) [[102]] ⟨[102], 3, 2, 1⟩ 5 0
    (by rfl) (by decide) (by decide) (by decide) (by decide) (by decide) (by decide)
    (by decide) (by decide)

/-! ## C3: operations on an unformatted volume -/

/-- **C3, counterexample.**  On a 19-byte backing file the volume is
unformatted (`header = None`), and a data operation does **not** return an
error: `find_file` (the first step of `mkdir`, `new_file`, `copy`, `remove`,
`cat`), `allocate_clusters` and `sector_to_byte` all hit the
`expect("… is not formatted!")` on the absent header and the process aborts —
`panic`, which is distinct from every error outcome. -/
theorem unformatted_op_counterexample :
    FATnew (List.replicate 19 0) = none ∧
      find_fileOp (FATnew (List.replicate 19 0)) (fixVol 0 ⟨[], 0, 0, 0⟩) [[102]]
        filter_find 5 = .panic ∧
      allocate_clustersOp (FATnew (List.replicate 19 0)) (fixVol 0 ⟨[], 0, 0, 0⟩) 1 = .panic ∧
      sector_to_byteOp (FATnew (List.replicate 19 0)) 0 = .panic ∧
      ∀ er, (POutcome.panic : POutcome (Option (Except FATError Entry))) ≠ .err er :=
  ⟨rfl, rfl, rfl, rfl, fun _ h => POutcome.noConfusion h⟩

/-- **C3, amended.**  For every backing file shorter than 20 bytes, or whose
first 20 bytes fail `Header::from_raw_bytes`, `FAT::new` yields an unformatted
volume (`header = None`).  Every data operation that reaches a disk-address
computation then **panics** on the header `expect` rather than returning an
error: `sector_to_byte`, `allocate_clusters`, and `find_file` — hence `mkdir`,
`new_file`, `copy`, `remove`, `cat` — whenever the path's first component is
within the 12-byte limit.  A `find_file`-based operation whose first component
exceeds 12 bytes fails with `FilenameTooLong` (and an empty component list
falls through to `FileNotFound`) before the header is touched: only those
inputs return an error instead of crashing. -/
theorem unformatted_volume_panics (bytes : List Nat) (s : VolState)
    (item : List Nat) (rest : List (List Nat)) (filter : Entry → Bool)
    (gas count sector : Nat)
    (hbad : bytes.length < 20 ∨ ∃ e, Header.fromRawBytes (bytes.take 20) = .error e)
    (hitem : item.length ≤ 12) :
    FATnew bytes = none ∧
      sector_to_byteOp (FATnew bytes) sector = .panic ∧
      allocate_clustersOp (FATnew bytes) s count = .panic ∧
      find_fileOp (FATnew bytes) s (item :: rest) filter gas = .panic ∧
      (∀ item2 rest2, 12 < item2.length →
        find_fileOp (FATnew bytes) s (item2 :: rest2) filter gas =
          .ok (some (.error .FilenameTooLong))) ∧
      find_fileOp (FATnew bytes) s [] filter gas = .ok (some (.error .FileNotFound)) := by
  have h : FATnew bytes = none := by
    unfold FATnew
    rcases hbad with h1 | ⟨e, he⟩
    · rw [if_pos h1]
    · by_cases h2 : bytes.length < 20
      · rw [if_pos h2]
      · rw [if_neg h2, he]
  refine ⟨h, ?_, ?_, ?_, ?_, ?_⟩
  · rw [h]
    rfl
  · rw [h]
    rfl
  · rw [h]
    show find_fileOp none s (item :: rest) filter gas = .panic
    simp only [find_fileOp]
    rw [if_neg (by omega : ¬12 < item.length)]
  · intro item2 rest2 hlong
    rw [h]
    show find_fileOp none s (item2 :: rest2) filter gas = _
    simp only [find_fileOp]
    rw [if_pos hlong]
  · rw [h]
    rfl

/-- Concrete instance of `unformatted_volume_panics`: the empty backing file,
with the path `f` (panic), any over-long first component (`FilenameTooLong`),
and the empty component list (`FileNotFound`). -/
theorem unformatted_volume_panics_witness :
    FATnew [] = none ∧
      sector_to_byteOp (FATnew []) 0 = .panic ∧
      allocate_clustersOp (FATnew []) (fixVol 0 ⟨[], 0, 0, 0⟩) 1 = .panic ∧
      find_fileOp (FATnew []) (fixVol 0 ⟨[], 0, 0, 0⟩) ([102] :: []) filter_find 5 = .panic ∧
      (∀ item2 rest2, 12 < item2.length →
        find_fileOp (FATnew []) (fixVol 0 ⟨[], 0, 0, 0⟩) (item2 :: rest2) filter_find 5 =
          .ok (some (.error .FilenameTooLong))) ∧
      find_fileOp (FATnew []) (fixVol 0 ⟨[], 0, 0, 0⟩) [] filter_find 5 =
        .ok (some (.error .FileNotFound)) :=
  unformatted_volume_panics [] (fixVol 0 ⟨[], 0, 0, 0⟩) [102] [] filter_find 5 1 0
    (Or.inl (by decide)) (by decide)

/-! ## C1: the `new_file`/`cat` round-trip -/

/-- Concrete instance of `data_region_layout` at capacity 1 MiB (256 clusters), cluster 1. -/
theorem data_region_layout_witness :
    first_data_sector ⟨512, 8, 2048, 2, 4294964726⟩ =
        1 + 2 * Header.clusterCount ⟨512, 8, 2048, 2, 4294964726⟩ / 128 ∧
      cluster_to_sector ⟨512, 8, 2048, 2, 4294964726⟩ 1 =
        first_data_sector ⟨512, 8, 2048, 2, 4294964726⟩ + (1 - 1) * 8 ∧
      (first_data_sector ⟨512, 8, 2048, 2, 4294964726⟩ =
          1 + 2 * ((Header.clusterCount ⟨512, 8, 2048, 2, 4294964726⟩ * 4 + 511) / 512) ↔
        Header.clusterCount ⟨512, 8, 2048, 2, 4294964726⟩ % 128 = 0) :=
  data_region_layout 1048576 ⟨512, 8, 2048, 2, 4294964726⟩ 1 rfl (by norm_num)

end ZosFs
